import Mathlib

/-!
Verification of the cosmostrix character-rain renderer.

This file shallowly embeds the core data model of the repository
(`src/cell.rs`, `src/frame.rs`, `src/terminal.rs`, `src/cloud.rs`)
into Lean and proves the specified properties about it.

Conventions of the embedding:
* machine integers (`u16`, `u32`, `usize`) become `Nat`; the `u32`
  generation counter wraps explicitly modulo `2^32`;
* `f32` quantities (times, rates, fractions) become `Rat`; `Instant`
  becomes a rational timestamp in seconds, `Duration` a nonnegative
  rational number of seconds;
* `Vec<T>` becomes `List T`; `Vec::get` becomes `List.get?`/`List.getD`;
* randomness is passed in explicitly as oracle values/streams;
* terminal colors (`crossterm::style::Color`) are opaque to the core,
  so they are embedded as `Nat`.
-/

/-- Embeds `crossterm::style::Color`: opaque to the core logic, so a `Nat`. -/
abbrev TermColor := Nat

/-- Embeds `Cell` from `src/cell.rs`. -/
structure Cell where
  ch : Char
  fg : Option TermColor
  bg : Option TermColor
  bold : Bool
deriving DecidableEq, Repr

/-- Embeds `Cell::blank_with_bg` from `src/cell.rs`. -/
def Cell.blank_with_bg (bg : Option TermColor) : Cell :=
  { ch := ' ', fg := none, bg := bg, bold := false }

/-- Embeds the `Frame` struct from `src/frame.rs`. -/
structure Frame where
  width : Nat
  height : Nat
  cells : List Cell
  gen : Nat
  cell_gen : List Nat
  blank : Cell
  dirty_all : Bool
  dirty_map : List Bool
  dirty : List Nat
deriving DecidableEq, Repr

namespace Frame

/-- Embeds `Frame::new`. -/
def new (width height : Nat) (bg : Option TermColor) : Frame :=
  let len := width * height
  let blank := Cell.blank_with_bg bg
  { width := width
    height := height
    cells := List.replicate len blank
    gen := 1
    cell_gen := List.replicate len 1
    blank := blank
    dirty_all := true
    dirty_map := List.replicate len false
    dirty := [] }

/-- Embeds `Frame::clear_with_bg`.  The `u32` generation counter is
bumped with explicit wrap-around modulo `2^32`; on wrap to `0` the whole
`cell_gen` vector is refilled with `0` and the counter restarts at `1`. -/
def clear_with_bg (f : Frame) (bg : Option TermColor) : Frame :=
  let blank := Cell.blank_with_bg bg
  let g := (f.gen + 1) % 2 ^ 32
  if g = 0 then
    { f with blank := blank
             gen := 1
             cell_gen := List.replicate f.cell_gen.length 0
             dirty_all := true
             dirty := [] }
  else
    { f with blank := blank
             gen := g
             dirty_all := true
             dirty := [] }

/-- Embeds `Frame::is_dirty_all`. -/
def is_dirty_all (f : Frame) : Bool := f.dirty_all

/-- Embeds `Frame::dirty_indices`. -/
def dirty_indices (f : Frame) : List Nat := f.dirty

/-- Embeds `Frame::clear_dirty`. -/
def clear_dirty (f : Frame) : Frame :=
  if f.dirty_all then
    { f with dirty_all := false
             dirty_map := List.replicate f.dirty_map.length false
             dirty := [] }
  else
    { f with dirty_map := f.dirty.foldl (fun m i => m.set i false) f.dirty_map
             dirty := [] }

/-- Embeds `Frame::index`: `None` out of bounds, otherwise the row-major index. -/
def index (f : Frame) (x y : Nat) : Option Nat :=
  if x ≥ f.width ∨ y ≥ f.height then none
  else some (y * f.width + x)

/-- Embeds `Frame::cell_at_index`: the effective cell value, falling back
to the configured blank when the cell's generation stamp is stale. -/
def cell_at_index (f : Frame) (i : Nat) : Cell :=
  if f.cell_gen.get? i = some f.gen then f.cells.getD i f.blank
  else f.blank

/-- Embeds `Frame::get`. -/
def get (f : Frame) (x y : Nat) : Option Cell :=
  (f.index x y).map (fun i =>
    if f.cell_gen.get? i = some f.gen then f.cells.getD i f.blank
    else f.blank)

/-- Embeds `Frame::set`: compare-before-write, generation stamping, and
dirty bookkeeping. -/
def set (f : Frame) (x y : Nat) (cell : Cell) : Frame :=
  match f.index x y with
  | none => f
  | some i =>
    let cur :=
      if f.cell_gen.get? i = some f.gen then f.cells.getD i f.blank
      else f.blank
    if cur = cell then f
    else
      let f' := { f with cells := f.cells.set i cell
                         cell_gen := f.cell_gen.set i f.gen }
      if f.dirty_all = false ∧ f.dirty_map.get? i = some false then
        { f' with dirty_map := f'.dirty_map.set i true
                  dirty := f'.dirty ++ [i] }
      else f'

/-- The structural invariant of `Frame`: vector lengths match the
dimensions, the generation counter is a live `u32` value, every cell
stamp is at most the current generation, and the dirty list / dirty map
are consistent and duplicate-free.  It holds in every reachable state. -/
def Inv (f : Frame) : Prop :=
  f.cells.length = f.width * f.height ∧
  f.cell_gen.length = f.width * f.height ∧
  f.dirty_map.length = f.width * f.height ∧
  1 ≤ f.gen ∧ f.gen < 2 ^ 32 ∧
  (∀ g ∈ f.cell_gen, g ≤ f.gen) ∧
  f.dirty.Nodup ∧
  (∀ i ∈ f.dirty, i < f.width * f.height) ∧
  (f.dirty_all = true → f.dirty = []) ∧
  (f.dirty_all = false →
    ∀ i < f.width * f.height, (f.dirty_map.getD i false = true ↔ i ∈ f.dirty))

/-- States reachable by the public `Frame` operations. -/
inductive Reachable : Frame → Prop
  | new (w h : Nat) (bg : Option TermColor) : Reachable (Frame.new w h bg)
  | set {f : Frame} (x y : Nat) (c : Cell) : Reachable f → Reachable (f.set x y c)
  | clear {f : Frame} (bg : Option TermColor) :
      Reachable f → Reachable (f.clear_with_bg bg)
  | clear_dirty {f : Frame} : Reachable f → Reachable f.clear_dirty

end Frame

/-- Embeds the `LastFrame` struct from `src/terminal.rs`: the snapshot of
the cells last physically written to the terminal. -/
structure LastFrame where
  width : Nat
  height : Nat
  cells : List Cell
deriving DecidableEq, Repr

/-- Embeds `LastFrame::new`: a snapshot of blank space cells. -/
def LastFrame.new (width height : Nat) : LastFrame :=
  { width := width
    height := height
    cells := List.replicate (width * height)
      { ch := ' ', fg := none, bg := none, bold := false } }

namespace Terminal

/-- Embeds the `needs_full_redraw` computation at the top of
`Terminal::draw`: no snapshot yet, or snapshot dimensions differ. -/
def needs_full_redraw (last : Option LastFrame) (frame : Frame) : Bool :=
  match last with
  | none => true
  | some l => decide (l.width ≠ frame.width ∨ l.height ≠ frame.height)

/-- Embeds the `dirty_is_large` computation of `Terminal::draw`:
the dirty count reaches a third (integer division) of the cell count. -/
def dirty_is_large (frame : Frame) : Bool :=
  let total_cells := frame.width * frame.height
  decide (total_cells > 0 ∧ frame.dirty_indices.length ≥ total_cells / 3)

/-- Embeds the `do_full_redraw` decision of `Terminal::draw`. -/
def do_full_redraw (last : Option LastFrame) (frame : Frame) : Bool :=
  let can_reuse_last := !needs_full_redraw last frame && last.isSome
  !can_reuse_last || frame.is_dirty_all || dirty_is_large frame

/-- Embeds the full-redraw double loop of `Terminal::draw`, restricted to
its effect on the snapshot cells: every cell of the frame is written into
the snapshot in row-major order. -/
def full_redraw_cells (frame : Frame) (cells : List Cell) : List Cell :=
  (List.range frame.height).foldl (fun cs y =>
    (List.range frame.width).foldl (fun cs x =>
      cs.set (y * frame.width + x) (frame.cell_at_index (y * frame.width + x)))
      cs) cells

/-- The attribute triple (`fg`, `bg`, `bold`) that run coalescing in
`Terminal::draw` compares between adjacent cells. -/
def cellAttr (c : Cell) : Option TermColor × Option TermColor × Bool :=
  (c.fg, c.bg, c.bold)

/-- Embeds the inner run-extension loop (`while j < b.len()`) of
`Terminal::draw`, restricted to its effect on the snapshot cells:
consumes adjacent dirty indices that changed and share the run's
attributes, writing each into the snapshot; returns the updated snapshot
and the number of indices consumed. -/
def extendRun (frame : Frame) (a0 : Option TermColor × Option TermColor × Bool) :
    List Cell → Nat → List Nat → List Cell × Nat
  | cells, _, [] => (cells, 0)
  | cells, lastIdx, idx1 :: rest =>
    if idx1 ≠ lastIdx + 1 then (cells, 0)
    else
      let cell1 := frame.cell_at_index idx1
      if cells.get? idx1 = some cell1 then (cells, 0)
      else if ¬ (cellAttr cell1 = a0) then (cells, 0)
      else
        let r := extendRun frame a0 (cells.set idx1 cell1) idx1 rest
        (r.1, r.2 + 1)

/-- Embeds the outer per-row loop (`while i < b.len()`) of
`Terminal::draw`, restricted to its effect on the snapshot cells:
skips dirty indices whose snapshot value already equals the frame value,
otherwise writes the cell and coalesces a run of adjacent changed cells. -/
def processRow (frame : Frame) : List Cell → List Nat → List Cell
  | cells, [] => cells
  | cells, idx0 :: rest =>
    let cell0 := frame.cell_at_index idx0
    if cells.get? idx0 = some cell0 then processRow frame cells rest
    else
      let r := extendRun frame (cellAttr cell0) (cells.set idx0 cell0) idx0 rest
      processRow frame r.1 (rest.drop r.2)
termination_by cells b => b.length
decreasing_by
  all_goals simp [List.length_drop]
  omega

/-- Embeds the `row_dirty` bucketing of `Terminal::draw`: the dirty
indices that fall on row `y` (indices whose row is at or past the frame
height are skipped), in their order in the dirty list. -/
def row_bucket (frame : Frame) (y : Nat) : List Nat :=
  frame.dirty.filter (fun i => i / frame.width = y)

/-- Embeds `touched_rows` after its sort and dedup: the ascending list of
in-range rows owning at least one dirty index. -/
def touched_rows (frame : Frame) : List Nat :=
  (List.range frame.height).filter (fun y => !(row_bucket frame y).isEmpty)

/-- Embeds `Terminal::draw` from `src/terminal.rs`, restricted to its
observable state: the snapshot (`last`) and the frame's dirty bookkeeping.
Queued escape sequences are I/O and are not modelled. -/
def draw (last : Option LastFrame) (frame : Frame) : Option LastFrame × Frame :=
  if do_full_redraw last frame then
    let base :=
      if needs_full_redraw last frame then LastFrame.new frame.width frame.height
      else (last.getD (LastFrame.new frame.width frame.height))
    let cells := full_redraw_cells frame base.cells
    (some { base with cells := cells }, frame.clear_dirty)
  else
    match last with
    | none => (none, frame.clear_dirty)
    | some l =>
      let cells := (touched_rows frame).foldl
        (fun cs y =>
          processRow frame cs
            ((row_bucket frame y).mergeSort (fun a b => decide (a ≤ b))))
        l.cells
      (some { l with cells := cells }, frame.clear_dirty)

end Terminal

/-- Embeds `ColorMode` from `src/runtime.rs`. -/
inductive ColorMode | Mono | Color16 | Color256 | TrueColor
deriving DecidableEq, Repr

/-- Embeds `ShadingMode` from `src/runtime.rs`. -/
inductive ShadingMode | Random | DistanceFromHead
deriving DecidableEq, Repr

/-- Embeds `BoldMode` from `src/runtime.rs`. -/
inductive BoldMode | Off | Random | All
deriving DecidableEq, Repr

/-- Embeds `CharLoc` from `src/cloud.rs`. -/
inductive CharLoc | Middle | Tail | Head
deriving DecidableEq, Repr

/-- Embeds the `DrawCtx` struct from `src/cloud.rs`.  `Instant`
timestamps become rational numbers of seconds. -/
structure DrawCtx where
  lines : Nat
  full_width : Bool
  shading_distance : Bool
  bg : Option TermColor
  color_mode : ColorMode
  bold_mode : BoldMode
  glitchy : Bool
  last_glitch_time : Rat
  next_glitch_time : Rat
  palette_colors : List TermColor
  color_map : List Nat
  glitch_map : List Bool
  char_pool : List Char

namespace DrawCtx

/-- Embeds `DrawCtx::is_bright`: within the first quarter of the glitch
window.  `saturating_duration_since` becomes clamping at zero. -/
def is_bright (ctx : DrawCtx) (now : Rat) : Bool :=
  if now < ctx.last_glitch_time then false
  else
    let since := max (now - ctx.last_glitch_time) 0
    let between := max (ctx.next_glitch_time - ctx.last_glitch_time) 0
    if between ≤ 0 then false
    else decide (since / between ≤ 1 / 4)

/-- Embeds `DrawCtx::is_dim`: within the last quarter of the glitch window. -/
def is_dim (ctx : DrawCtx) (now : Rat) : Bool :=
  if now > ctx.next_glitch_time then true
  else
    let since := max (now - ctx.last_glitch_time) 0
    let between := max (ctx.next_glitch_time - ctx.last_glitch_time) 0
    if between ≤ 0 then true
    else decide (since / between ≥ 3 / 4)

/-- Embeds `DrawCtx::is_glitched`: column-major lookup into the glitch
overlay, defensively `false` out of range. -/
def is_glitched (ctx : DrawCtx) (line col : Nat) : Bool :=
  if ¬ ctx.glitchy then false
  else ctx.glitch_map.getD (col * ctx.lines + line) false

/-- Embeds `DrawCtx::get_char`. -/
def get_char (ctx : DrawCtx) (line char_pool_idx : Nat) : Char :=
  let len := max ctx.char_pool.length 1
  let idx := (char_pool_idx + line) % len
  ctx.char_pool.getD idx '0'

/-- Embeds `DrawCtx::get_attr` from `src/cloud.rs`.  The `i32` color
index is an `Int`; `f32` shading arithmetic is carried out in `Rat`,
with `f32::round` (half away from zero) embedded as `Rat.round` (half
up), which agrees except exactly at negative half-integers — values the
subsequent clamp maps to the same result.  A negative index fed to
`get(color_idx as usize)` in Rust wraps to a huge `usize` and yields
`None`; the embedding returns `none` for negative indices. -/
def get_attr (ctx : DrawCtx) (line col : Nat) (val : Char) (loc : CharLoc)
    (now : Rat) (head_put_line length : Nat) : Option TermColor × Bool :=
  let bold :=
    if ctx.bold_mode = BoldMode.Random then
      decide ((line ^^^ val.toNat) % 2 = 1)
    else false
  let idx := col * ctx.lines + line
  let color_idx : Int := (ctx.color_map.getD idx 0 : Int)
  let color_idx : Int :=
    if ctx.shading_distance then
      let n : Rat := (max ctx.palette_colors.length 1 : Nat)
      let dist : Rat := ((head_put_line - line : Nat) : Rat)
      let len : Rat := (max length 1 : Nat)
      round ((n - 1) - dist / len * (n - 1))
    else color_idx
  let cb : Int × Bool :=
    if ctx.glitchy ∧ ctx.glitch_map.getD idx false then
      if ctx.is_bright now then (color_idx + 1, true)
      else if ctx.is_dim now then (color_idx - 1, false)
      else (color_idx, bold)
    else (color_idx, bold)
  let last : Int := ((ctx.palette_colors.length - 1 : Nat) : Int)
  let cb : Int × Bool :=
    match loc with
    | CharLoc.Tail => ((0 : Int), false)
    | CharLoc.Head => (last, true)
    | CharLoc.Middle => (max 0 (min cb.1 (max last 0)), cb.2)
  let bold :=
    match ctx.bold_mode with
    | BoldMode.Off => false
    | BoldMode.All => true
    | BoldMode.Random => cb.2
  let fg :=
    if ctx.color_mode = ColorMode.Mono then none
    else if cb.1 < 0 then none
    else ctx.palette_colors.get? cb.1.toNat
  (fg, bold)

end DrawCtx

/-- A concrete draw context with bold mode `Off`, used to evaluate
`get_attr` at an explicit input. -/
def ctxBoldOff : DrawCtx :=
  { lines := 1
    full_width := false
    shading_distance := false
    bg := none
    color_mode := ColorMode.TrueColor
    bold_mode := BoldMode.Off
    glitchy := false
    last_glitch_time := 0
    next_glitch_time := 1
    palette_colors := [1, 2]
    color_map := [0]
    glitch_map := [false]
    char_pool := ['0'] }

/-- Modelled from the spec: the `Droplet` struct of `src/droplet.rs`,
which is absent from the sources (only its callers in `src/cloud.rs` and
`src/main.rs` are present).  Field names and types follow the accesses
in `Cloud` (spec §3 "Droplet", §4.1): rows are `Nat`, times are rational
seconds, speeds rational characters per second. -/
structure Droplet where
  is_alive : Bool
  bound_col : Nat
  end_line : Nat
  char_pool_idx : Nat
  length : Nat
  chars_per_sec : Rat
  time_to_linger : Rat
  head_put_line : Nat
  head_cur_line : Nat
  tail_put_line : Option Nat
  tail_cur_line : Nat
  head_stop_time : Option Rat
  start_time : Option Rat
  last_time : Option Rat
deriving DecidableEq, Repr

namespace Droplet

/-- Modelled from the spec: `Droplet::new` (from the absent
`src/droplet.rs`) — an inactive pool slot (§3 "Lifecycle"). -/
def new : Droplet :=
  { is_alive := false
    bound_col := 65535
    end_line := 0
    char_pool_idx := 0
    length := 0
    chars_per_sec := 0
    time_to_linger := 0
    head_put_line := 0
    head_cur_line := 0
    tail_put_line := none
    tail_cur_line := 0
    head_stop_time := none
    start_time := none
    last_time := none }

/-- Modelled from the spec: `Droplet::activate` (from the absent
`src/droplet.rs`) — a droplet is "'filled' (parameters re-rolled) and
activated on spawn" (§3), recording the activation timestamp. -/
def activate (d : Droplet) (now : Rat) : Droplet :=
  { d with is_alive := true, start_time := some now, last_time := some now }

/-- Modelled from the spec: `Droplet::increment_time` (from the absent
`src/droplet.rs`) — used by `Cloud::toggle_pause` to shift an alive
droplet's clock forward by the paused duration. -/
def increment_time (d : Droplet) (elapsed : Rat) : Droplet :=
  { d with start_time := d.start_time.map (· + elapsed)
           last_time := d.last_time.map (· + elapsed)
           head_stop_time := d.head_stop_time.map (· + elapsed) }

/-- Modelled from the spec: `Droplet::advance` (from the absent
`src/droplet.rs`), per §4.1: while falling, head row =
`elapsed_time × chars_per_sec` clamped to `[0, stop_row]`; tail row =
head row − length once the head exceeds the length, clamped to `≥ 0`
(and never past the head); the head lingers at its stop row for
`time_to_linger` before the droplet may die once the tail has caught the
head.  Returns the advanced droplet and whether the droplet's column
became free this tick (the tick in which its tail leaves the top row;
the spec fixes only that a dying droplet's column is re-enabled, which
`Cloud::rain` does separately). -/
def advance (d : Droplet) (now : Rat) (lines : Nat) : Droplet × Bool :=
  if ¬ d.is_alive then (d, false)
  else
    match d.start_time with
    | none => (d, false)
    | some s =>
      let raw : Rat := max ((now - s) * d.chars_per_sec) 0
      let rawRow : Nat := (Int.floor raw).toNat
      let head := min rawRow d.end_line
      let tail := min (rawRow - d.length) head
      let stop : Option Rat :=
        if head = d.end_line then some (d.head_stop_time.getD now)
        else d.head_stop_time
      let dead : Bool :=
        decide (head = d.end_line) && decide (tail = head) &&
          match stop with
          | some t => decide (now ≥ t + d.time_to_linger)
          | none => false
      let freed : Bool := decide (d.tail_cur_line = 0) && decide (tail > 0)
      ({ d with head_cur_line := head
                tail_cur_line := tail
                head_stop_time := stop
                is_alive := !dead
                last_time := some now }, freed)

end Droplet

/-- Embeds `ColumnStatus` from `src/cloud.rs`. -/
structure ColumnStatus where
  max_speed_pct : Rat
  num_droplets : Nat
  can_spawn : Bool
deriving DecidableEq, Repr

/-- The per-spawn random draws consumed by `Cloud::fill_droplet`
(`rand_chance`, `rand_line`, `rand_cpidx`, `rand_len`,
`rand_linger_ms`), passed in explicitly as an oracle. -/
structure FillRand where
  die_early_chance : Rat
  end_line : Nat
  cp_idx : Nat
  short_chance : Rat
  len : Nat
  linger_ms : Nat
deriving DecidableEq, Repr

/-- Embeds the `Cloud` struct from `src/cloud.rs`.  The RNG (`mt` and
the `Uniform` distributions) is replaced by explicit oracle arguments to
the operations that sample; the palette is its color list plus optional
background (`build_palette` of `src/palette.rs` is an external provider
per spec §6 and is treated as opaque); the message-overlay fields and
`color_scheme`/`default_background` bookkeeping, not touched by the
properties below, are omitted. -/
structure Cloud where
  lines : Nat
  cols : Nat
  palette_colors : List TermColor
  palette_bg : Option TermColor
  color_mode : ColorMode
  full_width : Bool
  shading_distance : Bool
  bold_mode : BoldMode
  async_mode : Bool
  raining : Bool
  pause : Bool
  droplet_density : Rat
  droplets_per_sec : Rat
  chars_per_sec : Rat
  glitchy : Bool
  glitch_pct : Rat
  glitch_low_ms : Nat
  glitch_high_ms : Nat
  short_pct : Rat
  die_early_pct : Rat
  linger_low_ms : Nat
  linger_high_ms : Nat
  max_droplets_per_column : Nat
  droplets : List Droplet
  num_droplets : Nat
  chars : List Char
  char_pool : List Char
  glitch_pool : List Char
  glitch_pool_idx : Nat
  glitch_map : List Bool
  color_map : List Nat
  col_stat : List ColumnStatus
  last_glitch_time : Rat
  next_glitch_time : Rat
  last_spawn_time : Rat
  spawn_remainder : Rat
  pause_time : Option Rat
  force_draw_everything : Bool
  perf_pressure : Rat
  max_sim_delta : Rat
  shading_mode : ShadingMode
deriving DecidableEq, Repr

namespace Cloud

/-- Embeds `Cloud::new` from `src/cloud.rs` (the default configuration).
The palette produced by `build_palette` is passed in opaquely; `now` is
the construction timestamp.  The `f32` literal `0.3333333` is embedded
as the rational it denotes in the source text. -/
def new (color_mode : ColorMode) (full_width : Bool) (shading_mode : ShadingMode)
    (bold_mode : BoldMode) (async_mode : Bool)
    (palette_colors : List TermColor) (palette_bg : Option TermColor)
    (now : Rat) : Cloud :=
  { lines := 25
    cols := 80
    palette_colors := palette_colors
    palette_bg := palette_bg
    color_mode := color_mode
    full_width := full_width
    shading_distance := shading_mode = ShadingMode.DistanceFromHead
    bold_mode := bold_mode
    async_mode := async_mode
    raining := true
    pause := false
    droplet_density := 1
    droplets_per_sec := 5
    chars_per_sec := 8
    glitchy := true
    glitch_pct := 1 / 10
    glitch_low_ms := 300
    glitch_high_ms := 400
    short_pct := 1 / 2
    die_early_pct := 3333333 / 10000000
    linger_low_ms := 1
    linger_high_ms := 3000
    max_droplets_per_column := 3
    droplets := []
    num_droplets := 0
    chars := []
    char_pool := []
    glitch_pool := []
    glitch_pool_idx := 0
    glitch_map := []
    color_map := []
    col_stat := []
    last_glitch_time := now
    next_glitch_time := now + 3 / 10
    last_spawn_time := now
    spawn_remainder := 0
    pause_time := none
    force_draw_everything := false
    perf_pressure := 0
    max_sim_delta := 0
    shading_mode := shading_mode }

/-- Embeds `Cloud::recalc_droplets_per_sec`:
`spawn_rate = cols × density / (lines / chars_per_sec)`. -/
def recalc_droplets_per_sec (c : Cloud) : Cloud :=
  let droplet_seconds := (c.lines : Rat) / max c.chars_per_sec (1 / 1000)
  { c with droplets_per_sec := (c.cols : Rat) * c.droplet_density / droplet_seconds }

/-- Embeds `Cloud::fill_glitch_map`: cleared entirely when glitching is
off, otherwise resized to `lines × cols` and refilled cell by cell with
independent biased coin flips (`chance` is the oracle of `rand_chance`
samples). -/
def fill_glitch_map (c : Cloud) (chance : Nat → Rat) : Cloud :=
  if ¬ c.glitchy then { c with glitch_map := [] }
  else
    let size := c.lines * c.cols
    { c with glitch_map :=
        (List.range size).map (fun i => decide (chance i ≤ c.glitch_pct)) }

/-- Embeds `Cloud::fill_color_map`: resized to `lines × cols` and
refilled with uniform palette indices in the band `[low, high]` derived
from the palette size (`samp` is the oracle of uniform samples, reduced
into the band exactly as a uniform draw would be). -/
def fill_color_map (c : Cloud) (samp : Nat → Nat) : Cloud :=
  let size := c.lines * c.cols
  let n := max c.palette_colors.length 1
  let lohi : Nat × Nat := if n ≤ 2 then (0, 0) else if n = 3 then (1, 1) else (1, n - 2)
  { c with color_map :=
      (List.range size).map (fun i => lohi.1 + samp i % (lohi.2 - lohi.1 + 1)) }

/-- Embeds `Cloud::set_column_spawn`. -/
def set_column_spawn (c : Cloud) (col : Nat) (b : Bool) : Cloud :=
  match c.col_stat.get? col with
  | some cs => { c with col_stat := c.col_stat.set col { cs with can_spawn := b } }
  | none => c

/-- Embeds `Cloud::set_column_speeds` (`speed` is the oracle of
`rand_speed` samples used in async mode). -/
def set_column_speeds (c : Cloud) (speed : Nat → Rat) : Cloud :=
  { c with col_stat := (List.range c.col_stat.length).map (fun i =>
      let cs := (c.col_stat.getD i ⟨1, 0, true⟩)
      { cs with max_speed_pct := if c.async_mode then speed i else 1 }) }

/-- Embeds `Cloud::update_droplet_speeds`. -/
def update_droplet_speeds (c : Cloud) : Cloud :=
  { c with droplets := c.droplets.map (fun d =>
      if ¬ d.is_alive then d
      else
        match c.col_stat.get? d.bound_col with
        | some cs => { d with chars_per_sec := cs.max_speed_pct * c.chars_per_sec }
        | none => d) }

/-- Embeds `Cloud::reset` from `src/cloud.rs`: re-derives all
per-dimension state for a new `(cols, lines)` geometry.  `chance`,
`samp`, `speed` are the RNG oracles for the map/speed refills and `gms`
the sampled first glitch-window length in milliseconds. -/
def reset (c : Cloud) (cols lines : Nat) (now : Rat)
    (chance : Nat → Rat) (samp : Nat → Nat) (speed : Nat → Rat)
    (gms : Nat) : Cloud :=
  let nd := (round ((3 : Rat) / 2 * (cols : Rat))).toNat
  let c := { c with
    cols := cols
    lines := lines
    num_droplets := nd
    droplets := List.replicate nd Droplet.new
    col_stat := List.replicate cols ⟨1, 0, true⟩ }
  let c := recalc_droplets_per_sec c
  let c := fill_glitch_map c chance
  let c := fill_color_map c samp
  let c := set_column_speeds c speed
  let c := update_droplet_speeds c
  { c with
    last_glitch_time := now
    next_glitch_time := now + (gms : Rat) / 1000
    last_spawn_time := now
    spawn_remainder := 0
    force_draw_everything := true }

/-- Embeds `Cloud::set_glitch_pct`. -/
def set_glitch_pct (c : Cloud) (pct : Rat) (chance : Nat → Rat) : Cloud :=
  fill_glitch_map { c with glitch_pct := pct } chance

/-- Embeds `Cloud::set_color_scheme`; the palette rebuilt by
`build_palette` is passed in opaquely. -/
def set_color_scheme (c : Cloud) (palette_colors : List TermColor)
    (palette_bg : Option TermColor) (samp : Nat → Nat) : Cloud :=
  let c := { c with palette_colors := palette_colors, palette_bg := palette_bg }
  let c := fill_color_map c samp
  { c with force_draw_everything := true }

/-- Modelled from the spec: `Cloud::set_glitchy`, called from
`src/main.rs` but absent from the provided `src/cloud.rs`.  Per spec §3,
the glitch overlay is "regenerated whenever dimensions or glitch/color
parameters change", so the setter records the flag and refills the map. -/
def set_glitchy (c : Cloud) (b : Bool) (chance : Nat → Rat) : Cloud :=
  fill_glitch_map { c with glitchy := b } chance

/-- Embeds `Cloud::fill_droplet`: re-rolls the lifecycle parameters of a
pool slot from the oracle draws `r` and binds it to column `col`. -/
def fill_droplet (c : Cloud) (r : FillRand) (d : Droplet) (col : Nat) : Droplet :=
  let end_line :=
    if r.die_early_chance ≤ c.die_early_pct then r.end_line
    else c.lines - 1
  let len := if r.short_chance ≤ c.short_pct then r.len else c.lines
  let ttl : Rat :=
    if end_line ≤ len then (r.linger_ms : Rat) / 1000 else 1 / 1000
  let speed :=
    (match c.col_stat.get? col with
     | some cs => cs.max_speed_pct
     | none => 1) * c.chars_per_sec
  { d with
    bound_col := col
    end_line := end_line
    char_pool_idx := r.cp_idx
    length := len
    chars_per_sec := speed
    time_to_linger := ttl
    head_put_line := 0
    head_cur_line := 0
    tail_put_line := none
    tail_cur_line := 0
    head_stop_time := none }

/-- Embeds the free-slot scan of `Cloud::spawn_droplets`
(`while idx < droplets.len() ...`): the first index at or after `idx`
holding a dead droplet. -/
def find_free (ds : List Droplet) (idx : Nat) : Option Nat :=
  if h : idx < ds.length then
    if (ds.get ⟨idx, h⟩).is_alive then find_free ds (idx + 1) else some idx
  else none
termination_by ds.length - idx

/-- Embeds the spawn loop (`for _ in 0..to_spawn`) of
`Cloud::spawn_droplets`: one oracle entry `(colDraw, fillDraws)` per
iteration.  Returns the updated cloud, the number of droplets actually
activated, and — as instrumentation for the spawn-rate property —
whether every iteration passed its eligibility checks and found a free
pool slot. -/
def spawn_loop (c : Cloud) (now : Rat) :
    List (Nat × FillRand) → Nat → Cloud × Nat × Bool
  | [], _ => (c, 0, true)
  | (colDraw, fr) :: rest, idx =>
    let col := if c.full_width then colDraw &&& 0xFFFE else colDraw
    match c.col_stat.get? col with
    | none =>
      let r := spawn_loop c now rest idx
      (r.1, r.2.1, false)
    | some cs =>
      if ¬ cs.can_spawn ∨ cs.num_droplets ≥ c.max_droplets_per_column then
        let r := spawn_loop c now rest idx
        (r.1, r.2.1, false)
      else
        match find_free c.droplets idx with
        | none => (c, 0, false)
        | some di =>
          let d := (fill_droplet c fr Droplet.new col).activate now
          let cs' := { cs with can_spawn := false, num_droplets := cs.num_droplets + 1 }
          let c' := { c with
            droplets := c.droplets.set di d
            col_stat := c.col_stat.set col cs' }
          let r := spawn_loop c' now rest di
          (r.1, r.2.1 + 1, r.2.2)

/-- Embeds `Cloud::spawn_droplets` from `src/cloud.rs`: caps the elapsed
time by `max_sim_delta`, converts it into a fractional budget carrying
the remainder across calls, and runs the spawn loop `⌊budget⌋` (capped
by pool size) times.  `oracle` supplies the per-iteration random draws;
the activated count (the source's `spawned`) and the loop's success flag
are returned alongside. -/
def spawn_droplets (c : Cloud) (now : Rat) (scale : Rat)
    (oracle : List (Nat × FillRand)) : Cloud × Nat × Bool :=
  let elapsed0 := max (now - c.last_spawn_time) 0
  let elapsed := if c.max_sim_delta > 0 then min elapsed0 c.max_sim_delta else elapsed0
  let c := { c with last_spawn_time := now }
  let budget := max (elapsed * c.droplets_per_sec * scale) 0 + c.spawn_remainder
  let to_spawn := min (Int.floor budget).toNat c.num_droplets
  let c := { c with spawn_remainder := budget - (to_spawn : Rat) }
  if to_spawn = 0 then (c, 0, true)
  else spawn_loop c now (oracle.take to_spawn) 0

/-- Runs `spawn_droplets` once per oracle entry with a fixed per-step
elapsed time `Δ` (each step's timestamp is the previous
`last_spawn_time` plus `Δ`) and pressure scale `scale`, accumulating
the number of droplets activated and whether every spawn attempt of
every step passed its eligibility checks and found a free pool slot. -/
def spawn_run (Δ scale : Rat) : Cloud → List (List (Nat × FillRand)) → Cloud × Nat × Bool
  | c, [] => (c, 0, true)
  | c, o :: os =>
    let r := spawn_droplets c (c.last_spawn_time + Δ) scale o
    let rest := spawn_run Δ scale r.1 os
    (rest.1, r.2.1 + rest.2.1, r.2.2 && rest.2.2)

/-- Embeds `Cloud::time_for_glitch`. -/
def time_for_glitch (c : Cloud) (now : Rat) : Bool :=
  c.glitchy && decide (now ≥ c.next_glitch_time)

/-- Embeds `Cloud::is_glitched`. -/
def is_glitched (c : Cloud) (line col : Nat) : Bool :=
  if ¬ c.glitchy then false
  else c.glitch_map.getD (col * c.lines + line) false

/-- Embeds `Cloud::do_glitch_span` from `src/cloud.rs`: walks
`start_line..=hp` (stopping at the frame height), and for each
glitch-flagged cell replaces the character-pool entry the cell indexes
with the next glyph of the rotating glitch pool. -/
def do_glitch_span (c : Cloud) (start_line hp col cp_idx : Nat) : Cloud :=
  if ¬ c.glitchy then c
  else
    ((List.range' start_line (hp + 1 - start_line)).takeWhile
        (fun line => decide (line < c.lines))).foldl
      (fun c line =>
        if c.is_glitched line col then
          let char_idx := (cp_idx + line) % c.char_pool.length
          let repl := c.glitch_pool.getD (c.glitch_pool_idx % c.glitch_pool.length) '0'
          { c with char_pool := c.char_pool.set char_idx repl
                   glitch_pool_idx := (c.glitch_pool_idx + 1) % c.glitch_pool.length }
        else c) c

/-- Embeds one iteration of the droplet update pass of `Cloud::rain`
(`for i in 0..self.droplets.len()`): advance the droplet under the
per-droplet simulation-delta cap, do the death bookkeeping or column
freeing, and — when the glitch pass is allowed this tick — run
`do_glitch_span`, recording its arguments. -/
def rain_update_step (allow_glitch : Bool) (now : Rat)
    (acc : Cloud × List (Nat × Nat × Nat × Nat)) (i : Nat) :
    Cloud × List (Nat × Nat × Nat × Nat) :=
  let c := acc.1
  match c.droplets.get? i with
  | none => acc
  | some d =>
    if ¬ d.is_alive then acc
    else
      let adv_now :=
        if c.max_sim_delta > 0 then
          match d.last_time with
          | some last =>
            if now > last + c.max_sim_delta then last + c.max_sim_delta else now
          | none => now
        else now
      let adv := d.advance adv_now c.lines
      let d' := adv.1
      let free_col := adv.2
      let col := d'.bound_col
      let start_line := match d'.tail_put_line with | some v => v + 1 | none => 0
      let hp := d'.head_put_line
      let cp_idx := d'.char_pool_idx
      let died := ¬ d'.is_alive
      let c := { c with droplets := c.droplets.set i d' }
      if died then
        let cDied :=
          match c.col_stat.get? col with
          | some cs =>
            let cs' := { cs with num_droplets := cs.num_droplets - 1, can_spawn := true }
            { c with col_stat := c.col_stat.set col cs' }
          | none => c
        (cDied, acc.2)
      else
        let c := if free_col then c.set_column_spawn col true else c
        if allow_glitch then
          (c.do_glitch_span start_line hp col cp_idx,
           acc.2 ++ [(start_line, hp, col, cp_idx)])
        else (c, acc.2)

/-- Embeds the simulation part of `Cloud::rain` from `src/cloud.rs`:
the spawn call, the glitch gating, the droplet update pass (with the
per-droplet simulation-delta cap, death bookkeeping, column freeing and
glitch spans), and the glitch-window re-roll.  The draw pass
(`Droplet::draw`, absent from the sources) and the frame writes are
outside this embedding.  Returns the updated cloud together with the
argument list of the `do_glitch_span` calls the tick executed.
`spawnOracle` supplies the spawn draws and `gms` the re-rolled glitch
window length in milliseconds. -/
def rain_update (c0 : Cloud) (now : Rat)
    (spawnOracle : List (Nat × FillRand)) (gms : Nat) :
    Cloud × List (Nat × Nat × Nat × Nat) :=
  if c0.pause then (c0, [])
  else
    let spawn_scale := min (max (1 - 3 / 4 * c0.perf_pressure) (1 / 4)) 1
    let c1 := (spawn_droplets c0 now spawn_scale spawnOracle).1
    let glitch_due := time_for_glitch c1 now
    let allow_glitch := glitch_due && decide (c1.perf_pressure < 7 / 20)
    let upd := (List.range c1.droplets.length).foldl
      (rain_update_step allow_glitch now) (c1, [])
    let c2 := upd.1
    let c3 :=
      if allow_glitch || glitch_due then
        { c2 with last_glitch_time := now
                  next_glitch_time := now + (gms : Rat) / 1000 }
      else c2
    (c3, upd.2)

end Cloud

/-- The `Cloud` states reachable after a `reset(cols, lines)` through
the overlay-affecting operations: further resets (resize),
glitch-percentage changes, color-scheme changes, and glitch toggling. -/
inductive Cloud.MapsReachable : Cloud → Prop
  | reset (c : Cloud) (cols lines : Nat) (now : Rat) (chance : Nat → Rat)
      (samp : Nat → Nat) (speed : Nat → Rat) (gms : Nat) :
      Cloud.MapsReachable (c.reset cols lines now chance samp speed gms)
  | set_glitch_pct {c : Cloud} (pct : Rat) (chance : Nat → Rat) :
      Cloud.MapsReachable c → Cloud.MapsReachable (c.set_glitch_pct pct chance)
  | set_color_scheme {c : Cloud} (pc : List TermColor) (pb : Option TermColor)
      (samp : Nat → Nat) :
      Cloud.MapsReachable c → Cloud.MapsReachable (c.set_color_scheme pc pb samp)
  | set_glitchy {c : Cloud} (b : Bool) (chance : Nat → Rat) :
      Cloud.MapsReachable c → Cloud.MapsReachable (c.set_glitchy b chance)

/-- A default cloud with glitching switched off, as `src/main.rs` does
with `cloud.glitchy = !args.noglitch` before the initial reset. -/
def cloudNoGlitch : Cloud :=
  { Cloud.new ColorMode.Mono false ShadingMode.Random BoldMode.Off false [1] none 0 with
    glitchy := false }

/-- The no-glitch cloud after `reset(2, 2)`. -/
def cloudNoGlitchReset : Cloud :=
  cloudNoGlitch.reset 2 2 0 (fun _ => 1) (fun _ => 0) (fun _ => 1) 300

/-- A two-step spawn oracle: one column draw (column `0`) with its fill
draws per step. -/
def twoStepOracle : List (List (Nat × FillRand)) :=
  [[(0, ⟨1, 0, 0, 1, 1, 1⟩)], [(0, ⟨1, 0, 0, 1, 1, 1⟩)]]

/-- A default cloud whose perf pressure sits above the glitch threshold. -/
def cloudHighPressure : Cloud :=
  { Cloud.new ColorMode.Mono false ShadingMode.Random BoldMode.Off false [1] none 0 with
    perf_pressure := 1 / 2 }

/-- A default (glitch-enabled) cloud after `reset(2, 2)`. -/
def cloudGlitchReset : Cloud :=
  (Cloud.new ColorMode.Mono false ShadingMode.Random BoldMode.Off false [1] none 0).reset
    2 2 0 (fun _ => 1) (fun _ => 0) (fun _ => 1) 300

/-- Embeds one attempt's worth of spawn draws: column 0, with fill draws
that pick the no-die-early and no-shortened branches. -/
def frDraw : FillRand := ⟨1, 0, 0, 1, 1, 1⟩

/-- Gives `cloudGlitchReset` as an explicit record literal (proved equal
to it below), over which a concrete spawn run is evaluated. -/
def cgr : Cloud :=
  { lines := 2, cols := 2, palette_colors := [1], palette_bg := none,
    color_mode := ColorMode.Mono, full_width := false, shading_distance := false,
    bold_mode := BoldMode.Off, async_mode := false, raining := true, pause := false,
    droplet_density := 1, droplets_per_sec := 8, chars_per_sec := 8,
    glitchy := true, glitch_pct := 1/10, glitch_low_ms := 300, glitch_high_ms := 400,
    short_pct := 1/2, die_early_pct := 3333333/10000000, linger_low_ms := 1,
    linger_high_ms := 3000, max_droplets_per_column := 3,
    droplets := [Droplet.new, Droplet.new, Droplet.new], num_droplets := 3,
    chars := [], char_pool := [], glitch_pool := [], glitch_pool_idx := 0,
    glitch_map := [false, false, false, false], color_map := [0, 0, 0, 0],
    col_stat := [⟨1, 0, true⟩, ⟨1, 0, true⟩],
    last_glitch_time := 0, next_glitch_time := 3/10, last_spawn_time := 0,
    spawn_remainder := 0, pause_time := none, force_draw_everything := true,
    perf_pressure := 0, max_sim_delta := 0, shading_mode := ShadingMode.Random }

/-- Gives the run cloud after the first, spawnless step: the half-droplet
budget is carried in `spawn_remainder`. -/
def cgrMid : Cloud := { cgr with last_spawn_time := 1/16, spawn_remainder := 1/2 }

/-- Gives the droplet the second step of the run activates. -/
def dSpawned : Droplet :=
  { is_alive := true, bound_col := 0, end_line := 1, char_pool_idx := 0,
    length := 2, chars_per_sec := 8, time_to_linger := 1/1000,
    head_put_line := 0, head_cur_line := 0, tail_put_line := none,
    tail_cur_line := 0, head_stop_time := none,
    start_time := some (1/8), last_time := some (1/8) }

/-- Gives the cloud the second step's `spawn_loop` starts from. -/
def cgrStep : Cloud := { cgr with last_spawn_time := 1/8, spawn_remainder := 0 }

/-- Gives the run cloud after both steps: one droplet activated in column
0 and no carried remainder. -/
def cgrFinal : Cloud :=
  { cgr with last_spawn_time := 1/8
             spawn_remainder := 0
             droplets := [dSpawned, Droplet.new, Droplet.new]
             col_stat := [⟨1, 1, false⟩, ⟨1, 0, true⟩] }

/-! ## Theorems -/

namespace Frame

theorem index_eq_some {f : Frame} {x y i : Nat} :
    f.index x y = some i ↔ x < f.width ∧ y < f.height ∧ i = y * f.width + x := by
  unfold Frame.index
  by_cases h : x ≥ f.width ∨ y ≥ f.height
  · rw [if_pos h]
    constructor
    · intro hc
      exact Option.noConfusion hc
    · rintro ⟨h1, h2, -⟩
      rcases h with h | h <;> omega
  · rw [if_neg h]
    push_neg at h
    constructor
    · intro hc
      injection hc with hc
      exact ⟨h.1, h.2, hc.symm⟩
    · rintro ⟨-, -, rfl⟩
      rfl

theorem index_lt {f : Frame} {x y i : Nat} (h : f.index x y = some i) :
    i < f.width * f.height := by
  rw [index_eq_some] at h
  obtain ⟨hx, hy, hi⟩ := h
  subst hi
  calc y * f.width + x < y * f.width + f.width := by omega
    _ = (y + 1) * f.width := by ring
    _ ≤ f.height * f.width := Nat.mul_le_mul_right _ (by omega)
    _ = f.width * f.height := Nat.mul_comm _ _

end Frame

/-- C10: a `set` at any coordinate with `x ≥ width` or `y ≥ height`
leaves the frame completely unchanged, and `get` there returns `none`;
the embedded `Frame` operations are total functions of arbitrary
(hence in particular all `u16`) coordinates. -/
theorem frame_oob_set_noop_get_none (f : Frame) (x y : Nat) (c : Cell)
    (h : x ≥ f.width ∨ y ≥ f.height) :
    f.set x y c = f ∧ f.get x y = none := by
  have hidx : f.index x y = none := by
    unfold Frame.index
    exact if_pos h
  constructor
  · unfold Frame.set
    rw [hidx]
  · unfold Frame.get
    rw [hidx]
    rfl

/-- Witness for C10 at the concrete coordinate `(5, 0)` of a `2 × 2` frame. -/
theorem frame_oob_set_noop_get_none_witness :
    ((5 : Nat) ≥ (Frame.new 2 2 none).width ∨ (0 : Nat) ≥ (Frame.new 2 2 none).height) ∧
    ((Frame.new 2 2 none).set 5 0 (Cell.blank_with_bg none) = Frame.new 2 2 none ∧
      (Frame.new 2 2 none).get 5 0 = none) :=
  ⟨Or.inl (by decide), frame_oob_set_noop_get_none _ 5 0 _ (Or.inl (by decide))⟩

namespace Frame

theorem set_of_index_some {f : Frame} {x y i : Nat} (hidx : f.index x y = some i) (c : Cell) :
    f.set x y c =
      if f.cell_at_index i = c then f
      else if f.dirty_all = false ∧ f.dirty_map.get? i = some false then
        { f with cells := f.cells.set i c
                 cell_gen := f.cell_gen.set i f.gen
                 dirty_map := f.dirty_map.set i true
                 dirty := f.dirty ++ [i] }
      else
        { f with cells := f.cells.set i c
                 cell_gen := f.cell_gen.set i f.gen } := by
  unfold Frame.set Frame.cell_at_index
  rw [hidx]

theorem set_of_index_none {f : Frame} {x y : Nat} (hidx : f.index x y = none) (c : Cell) :
    f.set x y c = f := by
  unfold Frame.set
  rw [hidx]

theorem Inv_new (w h : Nat) (bg : Option TermColor) : Inv (Frame.new w h bg) := by
  unfold Frame.new Inv
  dsimp only
  refine ⟨by simp, by simp, by simp, le_refl 1, by norm_num, ?_, by simp, by simp, fun _ => rfl, ?_⟩
  · intro g hg
    rw [List.mem_replicate] at hg
    omega
  · intro hfalse
    exact absurd hfalse (by decide)

theorem Inv_set {f : Frame} (hf : Inv f) (x y : Nat) (c : Cell) : Inv (f.set x y c) := by
  obtain ⟨hc, hg, hm, hg1, hg2, hcg, hnd, hdlt, hda, hdm⟩ := hf
  cases hidx : f.index x y with
  | none =>
    rw [set_of_index_none hidx]
    exact ⟨hc, hg, hm, hg1, hg2, hcg, hnd, hdlt, hda, hdm⟩
  | some i =>
    have hi : i < f.width * f.height := index_lt hidx
    rw [set_of_index_some hidx]
    by_cases hcur : f.cell_at_index i = c
    · rw [if_pos hcur]
      exact ⟨hc, hg, hm, hg1, hg2, hcg, hnd, hdlt, hda, hdm⟩
    · rw [if_neg hcur]
      by_cases hpush : f.dirty_all = false ∧ f.dirty_map.get? i = some false
      · rw [if_pos hpush]
        have hnotmem : i ∉ f.dirty := by
          intro hmem
          have htrue := (hdm hpush.1 i hi).mpr hmem
          rw [List.getD_eq_getElem?_getD, ← List.get?_eq_getElem?, hpush.2] at htrue
          simp at htrue
        unfold Inv
        dsimp only
        refine ⟨by simpa using hc, by simpa using hg, by simpa using hm, hg1, hg2, ?_, ?_, ?_, ?_, ?_⟩
        · intro g hgm
          rcases List.mem_or_eq_of_mem_set hgm with hmem | hval
          · exact hcg g hmem
          · omega
        · simpa [List.nodup_append] using ⟨hnd, hnotmem⟩
        · intro j hj
          rcases List.mem_append.mp hj with hj | hj
          · exact hdlt j hj
          · rw [List.mem_singleton] at hj
            omega
        · intro htrue
          rw [hpush.1] at htrue
          exact absurd htrue (by decide)
        · intro _ j hj
          by_cases hji : j = i
          · subst hji
            have hjlen : j < f.dirty_map.length := by omega
            rw [List.getD_eq_getElem?_getD, List.getElem?_set_eq_of_lt true hjlen]
            simp
          · rw [List.getD_eq_getElem?_getD, List.getElem?_set_ne (fun h => hji h.symm),
              ← List.getD_eq_getElem?_getD]
            rw [hdm hpush.1 j hj]
            simp [hji]
      · rw [if_neg hpush]
        unfold Inv
        dsimp only
        refine ⟨by simpa using hc, by simpa using hg, hm, hg1, hg2, ?_, hnd, hdlt, hda, hdm⟩
        intro g hgm
        rcases List.mem_or_eq_of_mem_set hgm with hmem | hval
        · exact hcg g hmem
        · omega

end Frame

namespace Frame

theorem getD_set_false (m : List Bool) (a j : Nat) :
    ((m.set a false).getD j false = true) ↔ (m.getD j false = true ∧ j ≠ a) := by
  by_cases hja : j = a
  · subst hja
    by_cases hlen : j < m.length
    · rw [List.getD_eq_getElem?_getD, List.getElem?_set_eq_of_lt false hlen]
      simp
    · rw [List.getD_eq_getElem?_getD, List.getD_eq_getElem?_getD]
      have h1 : (m.set j false)[j]? = none := by
        rw [List.getElem?_eq_none_iff, List.length_set]
        omega
      have h2 : m[j]? = none := by
        rw [List.getElem?_eq_none_iff]
        omega
      rw [h1, h2]
      simp
  · rw [List.getD_eq_getElem?_getD, List.getElem?_set_ne (fun h => hja h.symm),
      ← List.getD_eq_getElem?_getD]
    simp [hja]

theorem foldl_set_false_length (l : List Nat) (m : List Bool) :
    (l.foldl (fun m i => m.set i false) m).length = m.length := by
  induction l generalizing m with
  | nil => rfl
  | cons a l ih =>
    rw [List.foldl_cons, ih (m.set a false), List.length_set]

theorem getD_foldl_set_false (l : List Nat) (m : List Bool) (j : Nat) :
    ((l.foldl (fun m i => m.set i false) m).getD j false = true) ↔
      (m.getD j false = true ∧ j ∉ l) := by
  induction l generalizing m with
  | nil => simp
  | cons a l ih =>
    rw [List.foldl_cons, ih (m.set a false), getD_set_false]
    constructor
    · rintro ⟨⟨h1, h2⟩, h3⟩
      exact ⟨h1, by simp [h2, h3]⟩
    · rintro ⟨h1, h2⟩
      simp only [List.mem_cons, not_or] at h2
      exact ⟨⟨h1, h2.1⟩, h2.2⟩

theorem Inv_clear {f : Frame} (hf : Inv f) (bg : Option TermColor) :
    Inv (f.clear_with_bg bg) := by
  obtain ⟨hc, hg, hm, hg1, hg2, hcg, hnd, hdlt, hda, hdm⟩ := hf
  unfold clear_with_bg
  dsimp only
  by_cases hz : (f.gen + 1) % 2 ^ 32 = 0
  · rw [if_pos hz]
    unfold Inv
    dsimp only
    refine ⟨hc, by simpa using hg, hm, le_refl 1, by norm_num, ?_, List.nodup_nil,
      by simp, fun _ => rfl, ?_⟩
    · intro g hgm
      rw [List.mem_replicate] at hgm
      omega
    · intro hfalse
      exact absurd hfalse (by decide)
  · rw [if_neg hz]
    unfold Inv
    dsimp only
    have heq : (f.gen + 1) % 2 ^ 32 = f.gen + 1 := by
      have h1 : f.gen + 1 ≤ 2 ^ 32 := by omega
      rcases eq_or_lt_of_le h1 with h | h
      · exfalso
        apply hz
        rw [h]
        simp
      · exact Nat.mod_eq_of_lt h
    refine ⟨hc, hg, hm, by omega, Nat.mod_lt _ (by norm_num), ?_, List.nodup_nil,
      by simp, fun _ => rfl, ?_⟩
    · intro g hgm
      have := hcg g hgm
      rw [heq]
      omega
    · intro hfalse
      exact absurd hfalse (by decide)

theorem Inv_clear_dirty {f : Frame} (hf : Inv f) : Inv f.clear_dirty := by
  obtain ⟨hc, hg, hm, hg1, hg2, hcg, hnd, hdlt, hda, hdm⟩ := hf
  unfold clear_dirty
  by_cases hall : f.dirty_all
  · rw [if_pos hall]
    unfold Inv
    dsimp only
    refine ⟨hc, hg, by simpa using hm, hg1, hg2, hcg, List.nodup_nil, by simp,
      fun _ => rfl, ?_⟩
    intro _ j hj
    rw [List.getD_eq_getElem?_getD, List.getElem?_replicate]
    by_cases hjl : j < f.dirty_map.length <;> simp [hjl]
  · rw [if_neg hall]
    unfold Inv
    dsimp only
    have hdall : f.dirty_all = false := by
      simpa using hall
    refine ⟨hc, hg, ?_, hg1, hg2, hcg, List.nodup_nil, by simp, fun _ => rfl, ?_⟩
    · rw [foldl_set_false_length]
      exact hm
    · intro _ j hj
      rw [getD_foldl_set_false]
      simp only [List.not_mem_nil, iff_false, not_and]
      intro htrue
      exact not_not_intro ((hdm hdall j hj).mp htrue)

theorem Inv_reachable {f : Frame} (h : Reachable f) : Inv f := by
  induction h with
  | new w h bg => exact Inv_new w h bg
  | set x y c _ ih => exact Inv_set ih x y c
  | clear bg _ ih => exact Inv_clear ih bg
  | clear_dirty _ ih => exact Inv_clear_dirty ih

end Frame

/-- C3: for an in-bounds coordinate, `Frame::set` is a no-op when the new
value equals the cell's current effective value; otherwise it writes the
cell, bumps the cell's generation stamp to the current generation, and
records the index as dirty exactly when the frame is not globally dirty
and the index is not already recorded; in every case no index ever
appears in the dirty list more than once. -/
theorem frame_set_dirty_spec (f : Frame) (x y : Nat) (c : Cell)
    (hinv : Frame.Inv f) (hx : x < f.width) (hy : y < f.height) :
    (f.cell_at_index (y * f.width + x) = c → f.set x y c = f) ∧
    (f.cell_at_index (y * f.width + x) ≠ c →
      (f.set x y c).cells = f.cells.set (y * f.width + x) c ∧
      (f.set x y c).cell_gen = f.cell_gen.set (y * f.width + x) f.gen ∧
      (f.dirty_all = false ∧ (y * f.width + x) ∉ f.dirty →
        (f.set x y c).dirty = f.dirty ++ [y * f.width + x]) ∧
      (f.dirty_all = true ∨ (y * f.width + x) ∈ f.dirty →
        (f.set x y c).dirty = f.dirty)) ∧
    (∀ j : Nat, (f.set x y c).dirty.count j ≤ 1) := by
  have hidx : f.index x y = some (y * f.width + x) := Frame.index_eq_some.mpr ⟨hx, hy, rfl⟩
  have hi : y * f.width + x < f.width * f.height := Frame.index_lt hidx
  obtain ⟨hc, hg, hm, hg1, hg2, hcg, hnd, hdlt, hda, hdm⟩ := hinv
  have hcount : ∀ j : Nat, (f.set x y c).dirty.count j ≤ 1 := by
    have hinv' := Frame.Inv_set ⟨hc, hg, hm, hg1, hg2, hcg, hnd, hdlt, hda, hdm⟩ x y c
    obtain ⟨-, -, -, -, -, -, hnd', -, -, -⟩ := hinv'
    exact fun j => List.nodup_iff_count_le_one.mp hnd' j
  refine ⟨?_, ?_, hcount⟩
  · intro hcur
    rw [Frame.set_of_index_some hidx, if_pos hcur]
  · intro hcur
    rw [Frame.set_of_index_some hidx, if_neg hcur]
    by_cases hpush : f.dirty_all = false ∧ f.dirty_map.get? (y * f.width + x) = some false
    · rw [if_pos hpush]
      refine ⟨rfl, rfl, fun _ => rfl, ?_⟩
      rintro (hall | hmem)
      · rw [hpush.1] at hall
        exact absurd hall (by decide)
      · exfalso
        have htrue := (hdm hpush.1 _ hi).mpr hmem
        rw [List.getD_eq_getElem?_getD, ← List.get?_eq_getElem?, hpush.2] at htrue
        simp at htrue
    · rw [if_neg hpush]
      refine ⟨rfl, rfl, ?_, fun _ => rfl⟩
      rintro ⟨hall, hnm⟩
      exfalso
      apply hpush
      refine ⟨hall, ?_⟩
      have hlen : y * f.width + x < f.dirty_map.length := by omega
      have hfalse : f.dirty_map.getD (y * f.width + x) false = false := by
        cases hb : f.dirty_map.getD (y * f.width + x) false
        · rfl
        · exact absurd ((hdm hall _ hi).mp hb) hnm
      rw [List.get?_eq_getElem?, List.getElem?_eq_getElem hlen]
      rw [List.getD_eq_getElem f.dirty_map false hlen] at hfalse
      rw [hfalse]

/-- Witness for C3 on a concrete `2 × 2` frame at `(1, 0)`. -/
theorem frame_set_dirty_spec_witness :
    (Frame.Inv (Frame.new 2 2 none) ∧ (1 : Nat) < (Frame.new 2 2 none).width ∧
      (0 : Nat) < (Frame.new 2 2 none).height) ∧
    (∀ j : Nat, ((Frame.new 2 2 none).set 1 0 (Cell.blank_with_bg (some 3))).dirty.count j ≤ 1) :=
  ⟨⟨Frame.Inv_new 2 2 none, by decide, by decide⟩,
    (frame_set_dirty_spec (Frame.new 2 2 none) 1 0 (Cell.blank_with_bg (some 3))
      (Frame.Inv_new 2 2 none) (by decide) (by decide)).2.2⟩

namespace Frame

theorem clear_fields (f : Frame) (bg : Option TermColor) :
    (f.clear_with_bg bg).width = f.width ∧ (f.clear_with_bg bg).height = f.height ∧
    (f.clear_with_bg bg).blank = Cell.blank_with_bg bg ∧
    (f.clear_with_bg bg).dirty_all = true := by
  unfold clear_with_bg
  dsimp only
  split <;> exact ⟨rfl, rfl, rfl, rfl⟩

theorem rowmajor_inj {w x y x' y' : Nat} (hx : x < w) (hx' : x' < w)
    (h : y * w + x = y' * w + x') : x = x' ∧ y = y' := by
  have hw : 0 < w := Nat.lt_of_le_of_lt (Nat.zero_le x) hx
  have e1 : (y * w + x) / w = y := by
    rw [Nat.add_comm, Nat.mul_comm y w, Nat.add_mul_div_left x y hw,
      Nat.div_eq_of_lt hx, Nat.zero_add]
  have e2 : (y' * w + x') / w = y' := by
    rw [Nat.add_comm, Nat.mul_comm y' w, Nat.add_mul_div_left x' y' hw,
      Nat.div_eq_of_lt hx', Nat.zero_add]
  have hy : y = y' := by
    rw [← e1, ← e2, h]
  refine ⟨?_, hy⟩
  subst hy
  exact Nat.add_left_cancel h

theorem set_fields (f : Frame) (x y : Nat) (c : Cell) :
    (f.set x y c).width = f.width ∧ (f.set x y c).height = f.height ∧
    (f.set x y c).gen = f.gen ∧ (f.set x y c).blank = f.blank := by
  cases hidx : f.index x y with
  | none =>
    rw [set_of_index_none hidx]
    exact ⟨rfl, rfl, rfl, rfl⟩
  | some i =>
    rw [set_of_index_some hidx]
    by_cases h1 : f.cell_at_index i = c
    · rw [if_pos h1]
      exact ⟨rfl, rfl, rfl, rfl⟩
    · rw [if_neg h1]
      by_cases h2 : f.dirty_all = false ∧ f.dirty_map.get? i = some false
      · rw [if_pos h2]
        exact ⟨rfl, rfl, rfl, rfl⟩
      · rw [if_neg h2]
        exact ⟨rfl, rfl, rfl, rfl⟩

theorem get_eq_cell_at_index {f : Frame} {x y i : Nat} (hidx : f.index x y = some i) :
    f.get x y = some (f.cell_at_index i) := by
  unfold get cell_at_index
  rw [hidx]
  rfl

theorem clear_gen_stale {f : Frame} (hf : Inv f) (bg : Option TermColor) (i : Nat) :
    (f.clear_with_bg bg).cell_gen.get? i ≠ some (f.clear_with_bg bg).gen := by
  obtain ⟨hc, hg, hm, hg1, hg2, hcg, hnd, hdlt, hda, hdm⟩ := hf
  unfold clear_with_bg
  dsimp only
  by_cases hz : (f.gen + 1) % 2 ^ 32 = 0
  · rw [if_pos hz]
    dsimp only
    rw [List.get?_eq_getElem?, List.getElem?_replicate]
    by_cases hlen : i < f.cell_gen.length <;> simp [hlen]
  · rw [if_neg hz]
    dsimp only
    have heq : (f.gen + 1) % 2 ^ 32 = f.gen + 1 := by
      have h1 : f.gen + 1 ≤ 2 ^ 32 := by omega
      rcases eq_or_lt_of_le h1 with h | h
      · exfalso
        apply hz
        rw [h]
        simp
      · exact Nat.mod_eq_of_lt h
    intro hcontra
    have hmem : (f.gen + 1) % 2 ^ 32 ∈ f.cell_gen := List.get?_mem hcontra
    have := hcg _ hmem
    omega

theorem cell_at_index_clear {f : Frame} (hf : Inv f) (bg : Option TermColor) (i : Nat) :
    (f.clear_with_bg bg).cell_at_index i = Cell.blank_with_bg bg := by
  unfold cell_at_index
  rw [if_neg (clear_gen_stale hf bg i)]
  exact (clear_fields f bg).2.2.1

end Frame

/-- C5: after `Frame::clear_with_bg(bg)` on any reachable frame, the
whole-frame-dirty flag is set and every in-bounds read returns the blank
cell configured for `bg`; a subsequent `set` at any other coordinate
leaves that read blank. -/
theorem frame_clear_blank_reads (f : Frame) (bg : Option TermColor)
    (hr : Frame.Reachable f) :
    (f.clear_with_bg bg).dirty_all = true ∧
    (∀ x y : Nat, x < f.width → y < f.height →
      (f.clear_with_bg bg).get x y = some (Cell.blank_with_bg bg)) ∧
    (∀ i : Nat, (f.clear_with_bg bg).cell_at_index i = Cell.blank_with_bg bg) ∧
    (∀ x y x' y' : Nat, ∀ c' : Cell, x < f.width → y < f.height →
      ¬(x' = x ∧ y' = y) →
      ((f.clear_with_bg bg).set x' y' c').get x y = some (Cell.blank_with_bg bg)) := by
  have hf := Frame.Inv_reachable hr
  have hfields := Frame.clear_fields f bg
  refine ⟨hfields.2.2.2, ?_, fun i => Frame.cell_at_index_clear hf bg i, ?_⟩
  · intro x y hx hy
    have hidx : (f.clear_with_bg bg).index x y = some (y * f.width + x) := by
      rw [Frame.index_eq_some, hfields.1, hfields.2.1]
      exact ⟨hx, hy, rfl⟩
    rw [Frame.get_eq_cell_at_index hidx, Frame.cell_at_index_clear hf bg]
  · intro x y x' y' c' hx hy hne
    set f1 := f.clear_with_bg bg with hf1
    have hsetf := Frame.set_fields f1 x' y' c'
    have hidx : (f1.set x' y' c').index x y = some (y * f.width + x) := by
      rw [Frame.index_eq_some, hsetf.1, hsetf.2.1, hfields.1, hfields.2.1]
      exact ⟨hx, hy, rfl⟩
    rw [Frame.get_eq_cell_at_index hidx]
    cases hidx' : f1.index x' y' with
    | none =>
      rw [Frame.set_of_index_none hidx']
      rw [Frame.cell_at_index_clear hf bg]
    | some i' =>
      have hxy' : x' < f.width ∧ y' < f.height ∧ i' = y' * f.width + x' := by
        have h := Frame.index_eq_some.mp hidx'
        rw [hfields.1, hfields.2.1] at h
        exact h
      have hii' : y * f.width + x ≠ i' := by
        rw [hxy'.2.2]
        intro hcontra
        rcases Frame.rowmajor_inj hx hxy'.1 hcontra with ⟨hxe, hye⟩
        exact hne ⟨hxe.symm, hye.symm⟩
      rw [Frame.set_of_index_some hidx']
      by_cases hcur : f1.cell_at_index i' = c'
      · rw [if_pos hcur, Frame.cell_at_index_clear hf bg]
      · rw [if_neg hcur]
        have hstale : f1.cell_gen.get? (y * f.width + x) ≠ some f1.gen :=
          Frame.clear_gen_stale hf bg _
        by_cases hpush : f1.dirty_all = false ∧ f1.dirty_map.get? i' = some false
        · rw [if_pos hpush]
          unfold Frame.cell_at_index
          dsimp only
          rw [List.get?_eq_getElem?, List.getElem?_set_ne (fun h => hii' h.symm),
            ← List.get?_eq_getElem?]
          rw [if_neg hstale, hfields.2.2.1]
        · rw [if_neg hpush]
          unfold Frame.cell_at_index
          dsimp only
          rw [List.get?_eq_getElem?, List.getElem?_set_ne (fun h => hii' h.symm),
            ← List.get?_eq_getElem?]
          rw [if_neg hstale, hfields.2.2.1]

namespace Terminal

theorem getD_set_ne (cells : List Cell) {i j : Nat} (v d : Cell) (h : j ≠ i) :
    (cells.set i v).getD j d = cells.getD j d := by
  rw [List.getD_eq_getElem?_getD, List.getElem?_set_ne (fun hh => h hh.symm),
    ← List.getD_eq_getElem?_getD]

theorem getD_set_eq (cells : List Cell) {i : Nat} (v d : Cell) (h : i < cells.length) :
    (cells.set i v).getD i d = v := by
  rw [List.getD_eq_getElem?_getD, List.getElem?_set_eq_of_lt v h]
  rfl

theorem getD_set_cases (cells : List Cell) (i j : Nat) (v d : Cell) :
    (cells.set i v).getD j d = cells.getD j d ∨ (cells.set i v).getD j d = v := by
  by_cases hij : j = i
  · subst hij
    by_cases hlen : j < cells.length
    · right
      exact getD_set_eq cells v d hlen
    · left
      rw [List.getD_eq_getElem?_getD, List.getD_eq_getElem?_getD]
      have h1 : (cells.set j v)[j]? = none := by
        rw [List.getElem?_eq_none_iff, List.length_set]
        omega
      have h2 : cells[j]? = none := by
        rw [List.getElem?_eq_none_iff]
        omega
      rw [h1, h2]
  · left
    exact getD_set_ne cells v d hij

theorem extendRun_length (frame : Frame) (a0 : Option TermColor × Option TermColor × Bool) :
    ∀ (l : List Nat) (cells : List Cell) (lastIdx : Nat),
      ((extendRun frame a0 cells lastIdx l).1).length = cells.length := by
  intro l
  induction l with
  | nil =>
    intro cells lastIdx
    rfl
  | cons idx1 rest ih =>
    intro cells lastIdx
    simp only [extendRun]
    split_ifs with h1 h2 h3
    all_goals first
      | rfl
      | (dsimp only
         rw [ih, List.length_set])

theorem extendRun_untouched (frame : Frame) (a0 : Option TermColor × Option TermColor × Bool) :
    ∀ (l : List Nat) (cells : List Cell) (lastIdx j : Nat) (d : Cell), j ∉ l →
      ((extendRun frame a0 cells lastIdx l).1).getD j d = cells.getD j d := by
  intro l
  induction l with
  | nil =>
    intro cells lastIdx j d _
    rfl
  | cons idx1 rest ih =>
    intro cells lastIdx j d hj
    have hj1 : j ≠ idx1 := fun h => hj (by simp [h])
    have hjr : j ∉ rest := fun h => hj (by simp [h])
    simp only [extendRun]
    split_ifs with h1 h2 h3
    all_goals first
      | rfl
      | (dsimp only
         rw [ih _ _ _ _ hjr, getD_set_ne cells _ d hj1])

theorem extendRun_only_eff (frame : Frame) (a0 : Option TermColor × Option TermColor × Bool) :
    ∀ (l : List Nat) (cells : List Cell) (lastIdx j : Nat) (d : Cell),
      ((extendRun frame a0 cells lastIdx l).1).getD j d = cells.getD j d ∨
      ((extendRun frame a0 cells lastIdx l).1).getD j d = frame.cell_at_index j := by
  intro l
  induction l with
  | nil =>
    intro cells lastIdx j d
    left
    rfl
  | cons idx1 rest ih =>
    intro cells lastIdx j d
    simp only [extendRun]
    split_ifs with h1 h2 h3
    all_goals try (left; rfl)
    · dsimp only
      rcases ih (cells.set idx1 (frame.cell_at_index idx1)) idx1 j d with hmid | hmid
      · rw [hmid]
        by_cases hji : j = idx1
        · subst hji
          rcases getD_set_cases cells j j (frame.cell_at_index j) d with hs | hs
          · left; exact hs
          · right; exact hs
        · left
          exact getD_set_ne cells _ d hji
      · right
        exact hmid

theorem extendRun_eff_preserved (frame : Frame) (a0 : Option TermColor × Option TermColor × Bool)
    (l : List Nat) (cells : List Cell) (lastIdx j : Nat) (d : Cell)
    (h : cells.getD j d = frame.cell_at_index j) :
    ((extendRun frame a0 cells lastIdx l).1).getD j d = frame.cell_at_index j := by
  rcases extendRun_only_eff frame a0 l cells lastIdx j d with hc | hc
  · rw [hc, h]
  · exact hc

theorem extendRun_take_eff (frame : Frame) (a0 : Option TermColor × Option TermColor × Bool) :
    ∀ (l : List Nat) (cells : List Cell) (lastIdx : Nat) (d : Cell),
      (∀ i ∈ l, i < cells.length) →
      ∀ j ∈ l.take (extendRun frame a0 cells lastIdx l).2,
        ((extendRun frame a0 cells lastIdx l).1).getD j d = frame.cell_at_index j := by
  intro l
  induction l with
  | nil =>
    intro cells lastIdx d _ j hj
    simp at hj
  | cons idx1 rest ih =>
    intro cells lastIdx d hlen j hj
    simp only [extendRun] at hj ⊢
    split_ifs at hj ⊢ with h1 h2 h3
    · simp at hj
    · simp at hj
    · dsimp only at hj ⊢
      rw [List.take_succ_cons, List.mem_cons] at hj
      rcases hj with hje | hjr
      · subst hje
        apply extendRun_eff_preserved
        exact getD_set_eq cells _ d (hlen j (by simp))
      · apply ih
        · intro i hi
          rw [List.length_set]
          exact hlen i (by simp [hi])
        · exact hjr
    · simp at hj

theorem processRow_length (frame : Frame) :
    ∀ (cells : List Cell) (b : List Nat), (processRow frame cells b).length = cells.length := by
  intro cells b
  induction cells, b using processRow.induct frame with
  | case1 cells =>
    simp only [processRow]
  | case2 cells idx0 rest cell0 h ih =>
    have hc : cell0 = frame.cell_at_index idx0 := rfl
    rw [hc] at h
    simp only [processRow]
    rw [if_pos h]
    exact ih
  | case3 cells idx0 rest cell0 h r ih =>
    have hc : cell0 = frame.cell_at_index idx0 := rfl
    have hr : r = extendRun frame (cellAttr cell0) (cells.set idx0 cell0) idx0 rest := rfl
    rw [hc] at h hr
    rw [hr] at ih
    simp only [processRow]
    rw [if_neg h]
    rw [ih, extendRun_length, List.length_set]

theorem processRow_only_eff (frame : Frame) :
    ∀ (cells : List Cell) (b : List Nat) (j : Nat) (d : Cell),
      (processRow frame cells b).getD j d = cells.getD j d ∨
      (processRow frame cells b).getD j d = frame.cell_at_index j := by
  intro cells b
  induction cells, b using processRow.induct frame with
  | case1 cells =>
    intro j d
    left
    simp only [processRow]
  | case2 cells idx0 rest cell0 h ih =>
    intro j d
    have hc : cell0 = frame.cell_at_index idx0 := rfl
    rw [hc] at h
    simp only [processRow]
    rw [if_pos h]
    exact ih j d
  | case3 cells idx0 rest cell0 h r ih =>
    intro j d
    have hc : cell0 = frame.cell_at_index idx0 := rfl
    have hr : r = extendRun frame (cellAttr cell0) (cells.set idx0 cell0) idx0 rest := rfl
    rw [hc] at h hr
    rw [hr] at ih
    simp only [processRow]
    rw [if_neg h]
    rcases ih j d with hmid | hmid
    · rw [hmid]
      rcases extendRun_only_eff frame (cellAttr (frame.cell_at_index idx0))
          rest (cells.set idx0 (frame.cell_at_index idx0)) idx0 j d with hmid2 | hmid2
      · rw [hmid2]
        by_cases hji : j = idx0
        · subst hji
          rcases getD_set_cases cells j j (frame.cell_at_index j) d with hs | hs
          · left; exact hs
          · right; exact hs
        · left
          exact getD_set_ne cells _ d hji
      · right
        exact hmid2
    · right
      exact hmid

theorem processRow_eff_preserved (frame : Frame) (cells : List Cell) (b : List Nat)
    (j : Nat) (d : Cell) (h : cells.getD j d = frame.cell_at_index j) :
    (processRow frame cells b).getD j d = frame.cell_at_index j := by
  rcases processRow_only_eff frame cells b j d with hc | hc
  · rw [hc, h]
  · exact hc

theorem processRow_untouched (frame : Frame) :
    ∀ (cells : List Cell) (b : List Nat) (j : Nat) (d : Cell), j ∉ b →
      (processRow frame cells b).getD j d = cells.getD j d := by
  intro cells b
  induction cells, b using processRow.induct frame with
  | case1 cells =>
    intro j d _
    simp only [processRow]
  | case2 cells idx0 rest cell0 h ih =>
    intro j d hj
    have hc : cell0 = frame.cell_at_index idx0 := rfl
    rw [hc] at h
    simp only [processRow]
    rw [if_pos h]
    exact ih j d (fun hm => hj (by simp [hm]))
  | case3 cells idx0 rest cell0 h r ih =>
    intro j d hj
    have hc : cell0 = frame.cell_at_index idx0 := rfl
    have hr : r = extendRun frame (cellAttr cell0) (cells.set idx0 cell0) idx0 rest := rfl
    rw [hc] at h hr
    rw [hr] at ih
    have hj0 : j ≠ idx0 := fun he => hj (by simp [he])
    have hjr : j ∉ rest := fun hm => hj (by simp [hm])
    simp only [processRow]
    rw [if_neg h]
    rw [ih j d (fun hm => hjr (List.mem_of_mem_drop hm)),
      extendRun_untouched frame _ rest _ idx0 j d hjr,
      getD_set_ne cells _ d hj0]

theorem processRow_mem_eff (frame : Frame) :
    ∀ (cells : List Cell) (b : List Nat) (d : Cell),
      (∀ i ∈ b, i < cells.length) →
      ∀ j ∈ b, (processRow frame cells b).getD j d = frame.cell_at_index j := by
  intro cells b
  induction cells, b using processRow.induct frame with
  | case1 cells =>
    intro d _ j hj
    simp at hj
  | case2 cells idx0 rest cell0 h ih =>
    intro d hlen j hj
    have hc : cell0 = frame.cell_at_index idx0 := rfl
    rw [hc] at h
    simp only [processRow]
    rw [if_pos h]
    rcases List.mem_cons.mp hj with hje | hjr
    · subst hje
      apply processRow_eff_preserved
      rw [List.getD_eq_getElem?_getD, ← List.get?_eq_getElem?, h]
      rfl
    · exact ih d (fun i hi => hlen i (by simp [hi])) j hjr
  | case3 cells idx0 rest cell0 h r ih =>
    intro d hlen j hj
    have hc : cell0 = frame.cell_at_index idx0 := rfl
    have hr : r = extendRun frame (cellAttr cell0) (cells.set idx0 cell0) idx0 rest := rfl
    rw [hc] at h hr
    rw [hr] at ih
    simp only [processRow]
    rw [if_neg h]
    rcases List.mem_cons.mp hj with hje | hjr
    · subst hje
      apply processRow_eff_preserved
      apply extendRun_eff_preserved
      exact getD_set_eq cells _ d (hlen j (by simp))
    · have hsplit := List.take_append_drop
        (extendRun frame (cellAttr (frame.cell_at_index idx0))
          (cells.set idx0 (frame.cell_at_index idx0)) idx0 rest).2 rest
      have hjtd : j ∈ List.take (extendRun frame (cellAttr (frame.cell_at_index idx0))
            (cells.set idx0 (frame.cell_at_index idx0)) idx0 rest).2 rest ∨
          j ∈ List.drop (extendRun frame (cellAttr (frame.cell_at_index idx0))
            (cells.set idx0 (frame.cell_at_index idx0)) idx0 rest).2 rest := by
        rw [← List.mem_append, hsplit]
        exact hjr
      rcases hjtd with hjt | hjd
      · apply processRow_eff_preserved
        apply extendRun_take_eff
        · intro i hi
          rw [List.length_set]
          exact hlen i (by simp [hi])
        · exact hjt
      · apply ih d
        · intro i hi
          rw [extendRun_length, List.length_set]
          exact hlen i (by simp [List.mem_of_mem_drop hi])
        · exact hjd

theorem rows_fold_length (frame : Frame) (rows : List Nat) (cells : List Cell) :
    ((rows.foldl (fun cs y =>
        processRow frame cs ((row_bucket frame y).mergeSort (fun a b => decide (a ≤ b))))
      cells).length) = cells.length := by
  induction rows generalizing cells with
  | nil => rfl
  | cons y rows ih =>
    rw [List.foldl_cons, ih, processRow_length]

theorem rows_fold_only_eff (frame : Frame) (rows : List Nat) (cells : List Cell)
    (j : Nat) (d : Cell) :
    ((rows.foldl (fun cs y =>
        processRow frame cs ((row_bucket frame y).mergeSort (fun a b => decide (a ≤ b))))
      cells).getD j d) = cells.getD j d ∨
    ((rows.foldl (fun cs y =>
        processRow frame cs ((row_bucket frame y).mergeSort (fun a b => decide (a ≤ b))))
      cells).getD j d) = frame.cell_at_index j := by
  induction rows generalizing cells with
  | nil =>
    left
    rfl
  | cons y rows ih =>
    rw [List.foldl_cons]
    rcases ih (processRow frame cells ((row_bucket frame y).mergeSort (fun a b => decide (a ≤ b))))
      with hmid | hmid
    · rw [hmid]
      exact processRow_only_eff frame cells _ j d
    · right
      exact hmid

theorem rows_fold_eff_preserved (frame : Frame) (rows : List Nat) (cells : List Cell)
    (j : Nat) (d : Cell) (h : cells.getD j d = frame.cell_at_index j) :
    ((rows.foldl (fun cs y =>
        processRow frame cs ((row_bucket frame y).mergeSort (fun a b => decide (a ≤ b))))
      cells).getD j d) = frame.cell_at_index j := by
  rcases rows_fold_only_eff frame rows cells j d with hc | hc
  · rw [hc, h]
  · exact hc

theorem mem_row_bucket {frame : Frame} {y j : Nat} :
    j ∈ row_bucket frame y ↔ j ∈ frame.dirty ∧ j / frame.width = y := by
  unfold row_bucket
  rw [List.mem_filter]
  simp

theorem rows_fold_untouched (frame : Frame) (rows : List Nat) (cells : List Cell)
    (j : Nat) (d : Cell) (hj : j ∉ frame.dirty) :
    ((rows.foldl (fun cs y =>
        processRow frame cs ((row_bucket frame y).mergeSort (fun a b => decide (a ≤ b))))
      cells).getD j d) = cells.getD j d := by
  induction rows generalizing cells with
  | nil => rfl
  | cons y rows ih =>
    rw [List.foldl_cons, ih, processRow_untouched]
    intro hm
    rw [List.mem_mergeSort, mem_row_bucket] at hm
    exact hj hm.1

theorem rows_fold_dirty_eff (frame : Frame) (rows : List Nat) (cells : List Cell)
    (d : Cell) (hlen : ∀ i ∈ frame.dirty, i < cells.length) :
    ∀ j ∈ frame.dirty, j / frame.width ∈ rows →
      ((rows.foldl (fun cs y =>
          processRow frame cs ((row_bucket frame y).mergeSort (fun a b => decide (a ≤ b))))
        cells).getD j d) = frame.cell_at_index j := by
  induction rows generalizing cells with
  | nil =>
    intro j _ hy
    simp at hy
  | cons y rows ih =>
    intro j hj hy
    rw [List.foldl_cons]
    by_cases hyy : j / frame.width = y
    · apply rows_fold_eff_preserved
      apply processRow_mem_eff
      · intro i hi
        rw [List.mem_mergeSort, mem_row_bucket] at hi
        exact hlen i hi.1
      · rw [List.mem_mergeSort, mem_row_bucket]
        exact ⟨hj, hyy⟩
    · rcases List.mem_cons.mp hy with hye | hyr
      · exact absurd hye hyy
      · apply ih
        · intro i hi
          rw [processRow_length]
          exact hlen i hi
        · exact hj
        · exact hyr

theorem foldl_set_eff_length (frame : Frame) :
    ∀ (ids : List Nat) (cs : List Cell),
      ((ids.foldl (fun cs i => cs.set i (frame.cell_at_index i)) cs).length) = cs.length := by
  intro ids
  induction ids with
  | nil =>
    intro cs
    rfl
  | cons i ids ih =>
    intro cs
    rw [List.foldl_cons, ih, List.length_set]

theorem foldl_set_eff_getD (frame : Frame) :
    ∀ (ids : List Nat) (cs : List Cell) (j : Nat) (d : Cell),
      ((ids.foldl (fun cs i => cs.set i (frame.cell_at_index i)) cs).getD j d) =
        if j ∈ ids ∧ j < cs.length then frame.cell_at_index j else cs.getD j d := by
  intro ids
  induction ids with
  | nil =>
    intro cs j d
    simp
  | cons i ids ih =>
    intro cs j d
    rw [List.foldl_cons, ih]
    rw [List.length_set]
    by_cases h1 : j ∈ ids ∧ j < cs.length
    · rw [if_pos h1, if_pos ⟨by simp [h1.1], h1.2⟩]
    · rw [if_neg h1]
      by_cases hji : j = i
      · subst hji
        by_cases hlt : j < cs.length
        · rw [getD_set_eq cs _ d hlt, if_pos ⟨by simp, hlt⟩]
        · rw [if_neg (fun hc => hlt hc.2)]
          rw [List.getD_eq_getElem?_getD, List.getD_eq_getElem?_getD]
          have ha : (cs.set j (frame.cell_at_index j))[j]? = none := by
            rw [List.getElem?_eq_none_iff, List.length_set]
            omega
          have hb : cs[j]? = none := by
            rw [List.getElem?_eq_none_iff]
            omega
          rw [ha, hb]
      · rw [getD_set_ne cs _ d hji]
        rw [if_neg]
        intro hc
        rcases List.mem_cons.mp hc.1 with he | hm
        · exact hji he
        · exact h1 ⟨hm, hc.2⟩

theorem row_ids_fold_getD (frame : Frame) :
    ∀ (ys : List Nat) (cs : List Cell) (j : Nat) (d : Cell),
      ((ys.foldl (fun cs y =>
          ((List.range frame.width).map (fun x => y * frame.width + x)).foldl
            (fun cs i => cs.set i (frame.cell_at_index i)) cs) cs).getD j d) =
        if (∃ y ∈ ys, j ∈ (List.range frame.width).map (fun x => y * frame.width + x)) ∧
            j < cs.length then
          frame.cell_at_index j
        else cs.getD j d := by
  intro ys
  induction ys with
  | nil =>
    intro cs j d
    simp
  | cons y ys ih =>
    intro cs j d
    rw [List.foldl_cons, ih, foldl_set_eff_length, foldl_set_eff_getD]
    by_cases h1 : (∃ y' ∈ ys, j ∈ (List.range frame.width).map (fun x => y' * frame.width + x)) ∧
        j < cs.length
    · obtain ⟨⟨y', hy', hj'⟩, hlt⟩ := h1
      rw [if_pos ⟨⟨y', hy', hj'⟩, hlt⟩, if_pos ⟨⟨y', by simp [hy'], hj'⟩, hlt⟩]
    · rw [if_neg h1]
      by_cases h2 : j ∈ (List.range frame.width).map (fun x => y * frame.width + x) ∧
          j < cs.length
      · rw [if_pos h2, if_pos ⟨⟨y, by simp, h2.1⟩, h2.2⟩]
      · rw [if_neg h2, if_neg]
        intro hc
        rcases hc.1 with ⟨y', hy', hj'⟩
        rcases List.mem_cons.mp hy' with hye | hym
        · subst hye
          exact h2 ⟨hj', hc.2⟩
        · exact h1 ⟨⟨y', hym, hj'⟩, hc.2⟩

theorem full_redraw_cells_length (frame : Frame) (cells : List Cell) :
    (full_redraw_cells frame cells).length = cells.length := by
  unfold full_redraw_cells
  have hrw : ∀ (y : Nat) (cs : List Cell),
      (List.range frame.width).foldl
        (fun cs x => cs.set (y * frame.width + x)
          (frame.cell_at_index (y * frame.width + x))) cs =
      ((List.range frame.width).map (fun x => y * frame.width + x)).foldl
        (fun cs i => cs.set i (frame.cell_at_index i)) cs := by
    intro y cs
    rw [List.foldl_map]
  induction (List.range frame.height) generalizing cells with
  | nil => rfl
  | cons y ys ih =>
    rw [List.foldl_cons, ih, hrw, foldl_set_eff_length]

theorem full_redraw_cells_getD (frame : Frame) (cells : List Cell) (d : Cell)
    (hlen : cells.length = frame.width * frame.height) :
    ∀ j < frame.width * frame.height,
      (full_redraw_cells frame cells).getD j d = frame.cell_at_index j := by
  intro j hj
  unfold full_redraw_cells
  have hrw : (fun (cs : List Cell) (y : Nat) =>
      (List.range frame.width).foldl
        (fun cs x => cs.set (y * frame.width + x)
          (frame.cell_at_index (y * frame.width + x))) cs) =
      (fun cs y =>
        ((List.range frame.width).map (fun x => y * frame.width + x)).foldl
          (fun cs i => cs.set i (frame.cell_at_index i)) cs) := by
    funext cs y
    rw [List.foldl_map]
  rw [hrw, row_ids_fold_getD]
  have hw : 0 < frame.width := by
    rcases Nat.eq_zero_or_pos frame.width with h | h
    · rw [h] at hj
      simp at hj
    · exact h
  rw [if_pos]
  refine ⟨⟨j / frame.width, ?_, ?_⟩, by omega⟩
  · rw [List.mem_range]
    exact Nat.div_lt_of_lt_mul (by omega)
  · rw [List.mem_map]
    refine ⟨j % frame.width, ?_, ?_⟩
    · rw [List.mem_range]
      exact Nat.mod_lt j hw
    · exact Nat.div_add_mod' j frame.width

theorem clear_dirty_flags (f : Frame) :
    f.clear_dirty.dirty = [] ∧ f.clear_dirty.dirty_all = false ∧
    f.clear_dirty.width = f.width ∧ f.clear_dirty.height = f.height := by
  unfold Frame.clear_dirty
  split_ifs with h
  · exact ⟨rfl, rfl, rfl, rfl⟩
  · refine ⟨rfl, ?_, rfl, rfl⟩
    simpa using h

end Terminal

/-- C6: `Terminal::draw` performs a full row-by-row redraw exactly when
there is no previous snapshot, the snapshot dimensions differ from the
frame's, the whole-frame-dirty flag is set, or the dirty count reaches a
third (integer division) of the total cell count; otherwise it takes the
incremental path, which rewrites the snapshot only at dirty indices. -/
theorem terminal_full_redraw_iff (last : Option LastFrame) (frame : Frame) :
    (Terminal.do_full_redraw last frame = true ↔
      last = none ∨
      (∃ l : LastFrame, last = some l ∧
        (l.width ≠ frame.width ∨ l.height ≠ frame.height)) ∨
      frame.dirty_all = true ∨
      (0 < frame.width * frame.height ∧
        frame.width * frame.height / 3 ≤ frame.dirty.length)) ∧
    (Terminal.do_full_redraw last frame = false →
      ∀ l : LastFrame, last = some l →
        ∃ l' : LastFrame, (Terminal.draw last frame).1 = some l' ∧
          ∀ j ∉ frame.dirty, ∀ d : Cell,
            l'.cells.getD j d = l.cells.getD j d) := by
  constructor
  · cases last with
    | none =>
      simp [Terminal.do_full_redraw, Terminal.needs_full_redraw, Terminal.dirty_is_large,
        Frame.is_dirty_all, Frame.dirty_indices]
    | some l =>
      simp [Terminal.do_full_redraw, Terminal.needs_full_redraw, Terminal.dirty_is_large,
        Frame.is_dirty_all, Frame.dirty_indices]
      tauto
  · intro hf l hl
    subst hl
    unfold Terminal.draw
    rw [hf]
    rw [if_neg (by decide : ¬(false = true))]
    refine ⟨_, rfl, ?_⟩
    intro j hj d
    exact Terminal.rows_fold_untouched frame (Terminal.touched_rows frame) l.cells j d hj

/-- Witness for C6's incremental branch at a concrete `2 × 2` snapshot
and a clean `2 × 2` frame. -/
theorem terminal_full_redraw_iff_witness :
    Terminal.do_full_redraw (some (LastFrame.new 2 2)) (Frame.new 2 2 none).clear_dirty = false ∧
    (∃ l' : LastFrame,
      (Terminal.draw (some (LastFrame.new 2 2)) (Frame.new 2 2 none).clear_dirty).1 = some l' ∧
      ∀ j ∉ ((Frame.new 2 2 none).clear_dirty).dirty, ∀ d : Cell,
        l'.cells.getD j d = (LastFrame.new 2 2).cells.getD j d) :=
  ⟨by decide,
    (terminal_full_redraw_iff (some (LastFrame.new 2 2)) (Frame.new 2 2 none).clear_dirty).2
      (by decide) (LastFrame.new 2 2) rfl⟩

/-- C9: if every index where the frame's effective content differs from
the snapshot is dirty (whenever the incremental path can be taken at
all), then `Terminal::draw` leaves the snapshot equal to the frame's
effective contents everywhere and clears the frame's dirty state — on
both the full-redraw path and the incremental run-coalescing path. -/
theorem terminal_draw_syncs (last : Option LastFrame) (frame : Frame)
    (hinv : Frame.Inv frame)
    (hlast : ∀ l : LastFrame, last = some l → l.cells.length = l.width * l.height)
    (hcover : ∀ l : LastFrame, last = some l → l.width = frame.width →
      l.height = frame.height → frame.dirty_all = false →
      ∀ j < frame.width * frame.height,
        l.cells.getD j (Cell.blank_with_bg none) ≠ frame.cell_at_index j →
        j ∈ frame.dirty) :
    ∃ l' : LastFrame, (Terminal.draw last frame).1 = some l' ∧
      l'.width = frame.width ∧ l'.height = frame.height ∧
      l'.cells.length = frame.width * frame.height ∧
      (∀ j < frame.width * frame.height,
        l'.cells.getD j (Cell.blank_with_bg none) = frame.cell_at_index j) ∧
      (Terminal.draw last frame).2.dirty = [] ∧
      (Terminal.draw last frame).2.dirty_all = false := by
  obtain ⟨hc, hg, hm, hg1, hg2, hcg, hnd, hdlt, hda, hdm⟩ := hinv
  have hcd := Terminal.clear_dirty_flags frame
  by_cases hf : Terminal.do_full_redraw last frame = true
  · unfold Terminal.draw
    rw [hf, if_pos rfl]
    have hbase : (if Terminal.needs_full_redraw last frame = true
          then LastFrame.new frame.width frame.height
          else last.getD (LastFrame.new frame.width frame.height)).width = frame.width ∧
        (if Terminal.needs_full_redraw last frame = true
          then LastFrame.new frame.width frame.height
          else last.getD (LastFrame.new frame.width frame.height)).height = frame.height ∧
        (if Terminal.needs_full_redraw last frame = true
          then LastFrame.new frame.width frame.height
          else last.getD (LastFrame.new frame.width frame.height)).cells.length =
          frame.width * frame.height := by
      by_cases hn : Terminal.needs_full_redraw last frame = true
      · rw [if_pos hn]
        exact ⟨rfl, rfl, by simp [LastFrame.new]⟩
      · rw [if_neg hn]
        cases hl : last with
        | none =>
          rw [hl] at hn
          exact absurd rfl hn
        | some l =>
          rw [hl] at hn
          unfold Terminal.needs_full_redraw at hn
          simp only [decide_eq_true_eq, not_or] at hn
          push_neg at hn
          simp only [Option.getD_some]
          refine ⟨hn.1, hn.2, ?_⟩
          rw [hlast l hl, hn.1, hn.2]
    refine ⟨_, rfl, hbase.1, hbase.2.1, ?_, ?_, hcd.1, hcd.2.1⟩
    · dsimp only
      rw [Terminal.full_redraw_cells_length]
      exact hbase.2.2
    · intro j hj
      dsimp only
      exact Terminal.full_redraw_cells_getD frame _ _ hbase.2.2 j hj
  · have hf' : Terminal.do_full_redraw last frame = false := by
      simpa using hf
    have hparts : Terminal.needs_full_redraw last frame = false ∧ last.isSome = true ∧
        frame.dirty_all = false := by
      unfold Terminal.do_full_redraw at hf'
      simp only [Bool.or_eq_false_iff, Bool.not_eq_false', Bool.and_eq_true] at hf'
      refine ⟨?_, hf'.1.1.2, by simpa [Frame.is_dirty_all] using hf'.1.2⟩
      have hx := hf'.1.1.1
      simpa using hx
    cases hl : last with
    | none =>
      rw [hl] at hparts
      simp [Terminal.needs_full_redraw] at hparts
    | some l =>
      have hdims : l.width = frame.width ∧ l.height = frame.height := by
        have hn := hparts.1
        rw [hl] at hn
        unfold Terminal.needs_full_redraw at hn
        simp only [decide_eq_false_iff_not, not_or, not_not] at hn
        exact hn
      have hlen : l.cells.length = frame.width * frame.height := by
        rw [hlast l hl, hdims.1, hdims.2]
      rw [hl] at hf'
      unfold Terminal.draw
      rw [hf', if_neg (by decide : ¬(false = true))]
      refine ⟨_, rfl, hdims.1, hdims.2, ?_, ?_, hcd.1, hcd.2.1⟩
      · dsimp only
        rw [Terminal.rows_fold_length]
        exact hlen
      · intro j hj
        dsimp only
        by_cases hjd : j ∈ frame.dirty
        · apply Terminal.rows_fold_dirty_eff
          · intro i hi
            rw [hlen]
            exact hdlt i hi
          · exact hjd
          · have hw : 0 < frame.width := by
              rcases Nat.eq_zero_or_pos frame.width with h0 | h0
              · rw [h0] at hj
                simp at hj
              · exact h0
            have hyh : j / frame.width < frame.height :=
              Nat.div_lt_of_lt_mul hj
            have hmemb : j ∈ Terminal.row_bucket frame (j / frame.width) :=
              Terminal.mem_row_bucket.mpr ⟨hjd, rfl⟩
            unfold Terminal.touched_rows
            rw [List.mem_filter]
            refine ⟨List.mem_range.mpr hyh, ?_⟩
            cases hb : Terminal.row_bucket frame (j / frame.width) with
            | nil =>
              rw [hb] at hmemb
              simp at hmemb
            | cons a t => rfl
        · rw [Terminal.rows_fold_untouched frame _ _ _ _ hjd]
          by_cases heq : l.cells.getD j (Cell.blank_with_bg none) = frame.cell_at_index j
          · exact heq
          · exact absurd (hcover l hl hdims.1 hdims.2 hparts.2.2 j hj heq) hjd

/-- Witness for C9 with no prior snapshot and a fresh `1 × 1` frame
(full-redraw path). -/
theorem terminal_draw_syncs_witness :
    Frame.Inv (Frame.new 1 1 none) ∧
    (∃ l' : LastFrame, (Terminal.draw none (Frame.new 1 1 none)).1 = some l' ∧
      l'.width = (Frame.new 1 1 none).width ∧ l'.height = (Frame.new 1 1 none).height ∧
      l'.cells.length = (Frame.new 1 1 none).width * (Frame.new 1 1 none).height ∧
      (∀ j < (Frame.new 1 1 none).width * (Frame.new 1 1 none).height,
        l'.cells.getD j (Cell.blank_with_bg none) = (Frame.new 1 1 none).cell_at_index j) ∧
      (Terminal.draw none (Frame.new 1 1 none)).2.dirty = [] ∧
      (Terminal.draw none (Frame.new 1 1 none)).2.dirty_all = false) :=
  ⟨Frame.Inv_new 1 1 none,
    terminal_draw_syncs none (Frame.new 1 1 none) (Frame.Inv_new 1 1 none)
      (fun l h => nomatch h) (fun l h => nomatch h)⟩

/-- Witness for C5 on a fresh `1 × 1` frame cleared to background `2`. -/
theorem frame_clear_blank_reads_witness :
    Frame.Reachable (Frame.new 1 1 none) ∧
    (((Frame.new 1 1 none).clear_with_bg (some 2)).dirty_all = true ∧
      (∀ x y : Nat, x < (Frame.new 1 1 none).width → y < (Frame.new 1 1 none).height →
        ((Frame.new 1 1 none).clear_with_bg (some 2)).get x y =
          some (Cell.blank_with_bg (some 2))) ∧
      (∀ i : Nat, ((Frame.new 1 1 none).clear_with_bg (some 2)).cell_at_index i =
        Cell.blank_with_bg (some 2)) ∧
      (∀ x y x' y' : Nat, ∀ c' : Cell, x < (Frame.new 1 1 none).width →
        y < (Frame.new 1 1 none).height → ¬(x' = x ∧ y' = y) →
        (((Frame.new 1 1 none).clear_with_bg (some 2)).set x' y' c').get x y =
          some (Cell.blank_with_bg (some 2)))) :=
  ⟨Frame.Reachable.new 1 1 none,
    frame_clear_blank_reads (Frame.new 1 1 none) (some 2) (Frame.Reachable.new 1 1 none)⟩

theorem middle_fg_clamped (pal : List TermColor) (ci : Int) (hlen : 0 < pal.length) :
    ∃ i : Nat, i < pal.length ∧
      (if (max 0 (min ci (max ((pal.length - 1 : Nat) : Int) 0))) < 0 then
        (none : Option TermColor)
      else pal.get? (max 0 (min ci (max ((pal.length - 1 : Nat) : Int) 0))).toNat) =
        pal.get? i := by
  refine ⟨(max 0 (min ci (max ((pal.length - 1 : Nat) : Int) 0))).toNat, ?_, ?_⟩
  · omega
  · rw [if_neg (by omega)]

/-- C4 (amended): `DrawCtx::get_attr` gives the head cell the last
(brightest) palette color, bold unless bold mode is `Off`; the tail cell
palette index `0` (darkest), non-bold unless bold mode is `All`; middle
cells a color index clamped into the palette range; and no foreground
color at all in monochrome mode. -/
theorem get_attr_spec (ctx : DrawCtx) (line col : Nat) (val : Char)
    (now : Rat) (head_put_line length : Nat)
    (hpal : ctx.palette_colors ≠ []) :
    ((ctx.get_attr line col val CharLoc.Head now head_put_line length).2 =
      decide (ctx.bold_mode ≠ BoldMode.Off)) ∧
    (ctx.color_mode ≠ ColorMode.Mono →
      (ctx.get_attr line col val CharLoc.Head now head_put_line length).1 =
        ctx.palette_colors.get? (ctx.palette_colors.length - 1)) ∧
    ((ctx.get_attr line col val CharLoc.Tail now head_put_line length).2 =
      decide (ctx.bold_mode = BoldMode.All)) ∧
    (ctx.color_mode ≠ ColorMode.Mono →
      (ctx.get_attr line col val CharLoc.Tail now head_put_line length).1 =
        ctx.palette_colors.get? 0) ∧
    (ctx.color_mode ≠ ColorMode.Mono →
      ∃ i : Nat, i < ctx.palette_colors.length ∧
        (ctx.get_attr line col val CharLoc.Middle now head_put_line length).1 =
          ctx.palette_colors.get? i) ∧
    (∀ loc : CharLoc, ctx.color_mode = ColorMode.Mono →
      (ctx.get_attr line col val loc now head_put_line length).1 = none) := by
  have hlen : 0 < ctx.palette_colors.length := List.length_pos.mpr hpal
  have hlast_nonneg : ¬(((ctx.palette_colors.length - 1 : Nat) : Int) < 0) := by
    omega
  refine ⟨?_, ?_, ?_, ?_, ?_, ?_⟩
  · unfold DrawCtx.get_attr
    dsimp only
    cases hb : ctx.bold_mode <;> simp
  · intro hM
    unfold DrawCtx.get_attr
    dsimp only
    rw [if_neg hM, if_neg hlast_nonneg, Int.toNat_natCast]
  · unfold DrawCtx.get_attr
    dsimp only
    cases hb : ctx.bold_mode <;> simp
  · intro hM
    unfold DrawCtx.get_attr
    dsimp only
    rw [if_neg hM, if_neg (by omega : ¬((0 : Int) < 0))]
    rfl
  · intro hM
    unfold DrawCtx.get_attr
    dsimp only
    rw [if_neg hM]
    exact middle_fg_clamped ctx.palette_colors _ hlen
  · intro loc hM
    cases loc <;>
      (unfold DrawCtx.get_attr
       dsimp only
       rw [if_pos hM])

/-- Witness for C4 (amended) at a concrete context with a two-color
palette. -/
theorem get_attr_spec_witness :
    ctxBoldOff.palette_colors ≠ [] ∧
    ((ctxBoldOff.get_attr 0 0 'a' CharLoc.Head 0 0 1).2 =
      decide (ctxBoldOff.bold_mode ≠ BoldMode.Off)) :=
  ⟨by decide,
    (get_attr_spec ctxBoldOff 0 0 'a' 0 0 1 (by decide)).1⟩

/-- Counterexample for C4 as stated: with bold mode `Off`, the head cell
is not bold — `get_attr` at an explicit context returns `bold = false`
for the head location, contradicting "the head cell ... with bold set
(for every bold mode)". -/
theorem get_attr_head_not_bold_counterexample :
    ¬((ctxBoldOff.get_attr 0 0 'a' CharLoc.Head 0 0 1).2 = true) := by
  decide

/-- C2 (spec-modelled): for an alive droplet, `Droplet::advance` always
yields a tail row at most the head row; the tail row is monotonically
non-decreasing in time; and while the droplet stays alive, a second
advance of the advanced droplet lands on the same tail row as advancing
the original droplet to the later time — so the per-tick tail never
decreases while alive. -/
theorem droplet_advance_tail_head (d : Droplet) (s t1 t2 : Rat) (lines : Nat)
    (hs : d.start_time = some s) (halive : d.is_alive = true)
    (hcps : 0 ≤ d.chars_per_sec) (h12 : t1 ≤ t2) :
    ((d.advance t1 lines).1.tail_cur_line ≤ (d.advance t1 lines).1.head_cur_line) ∧
    ((d.advance t1 lines).1.tail_cur_line ≤ (d.advance t2 lines).1.tail_cur_line) ∧
    ((d.advance t1 lines).1.is_alive = true →
      (((d.advance t1 lines).1.advance t2 lines).1.tail_cur_line =
        (d.advance t2 lines).1.tail_cur_line)) := by
  have hnot : ¬¬(d.is_alive = true) := by simp [halive]
  have hm0 : max ((t1 - s) * d.chars_per_sec) 0 ≤ max ((t2 - s) * d.chars_per_sec) 0 :=
    max_le_max (mul_le_mul_of_nonneg_right (by linarith) hcps) le_rfl
  have hm1 : (Int.floor (max ((t1 - s) * d.chars_per_sec) 0)).toNat ≤
      (Int.floor (max ((t2 - s) * d.chars_per_sec) 0)).toNat :=
    Int.toNat_le_toNat (Int.floor_le_floor hm0)
  refine ⟨?_, ?_, ?_⟩
  · unfold Droplet.advance
    rw [if_neg hnot, hs]
    dsimp only
    exact min_le_right _ _
  · unfold Droplet.advance
    rw [if_neg hnot, if_neg hnot, hs]
    dsimp only
    omega
  · intro halive2
    unfold Droplet.advance at halive2 ⊢
    rw [if_neg hnot, hs] at halive2
    rw [if_neg hnot, if_neg hnot, hs]
    dsimp only at halive2 ⊢
    rw [if_neg (not_not_intro halive2)]

/-- Witness for C2 on a concrete droplet activated at time `0`,
advanced at times `1` and `2`. -/
theorem droplet_advance_tail_head_witness :
    ((Droplet.new.activate 0).start_time = some 0 ∧
      (Droplet.new.activate 0).is_alive = true ∧
      (0 : Rat) ≤ (Droplet.new.activate 0).chars_per_sec ∧
      (1 : Rat) ≤ 2) ∧
    (((Droplet.new.activate 0).advance 1 10).1.tail_cur_line ≤
        ((Droplet.new.activate 0).advance 1 10).1.head_cur_line ∧
      ((Droplet.new.activate 0).advance 1 10).1.tail_cur_line ≤
        ((Droplet.new.activate 0).advance 2 10).1.tail_cur_line ∧
      (((Droplet.new.activate 0).advance 1 10).1.is_alive = true →
        (((Droplet.new.activate 0).advance 1 10).1.advance 2 10).1.tail_cur_line =
          ((Droplet.new.activate 0).advance 2 10).1.tail_cur_line)) :=
  ⟨⟨rfl, rfl, le_of_eq rfl, by norm_num⟩,
    droplet_advance_tail_head (Droplet.new.activate 0) 0 1 2 10 rfl rfl
      (le_of_eq rfl) (by norm_num)⟩

namespace Cloud

theorem fill_glitch_map_spec (c : Cloud) (chance : Nat → Rat) :
    (c.fill_glitch_map chance).glitch_map.length =
      (if c.glitchy = true then c.lines * c.cols else 0) ∧
    (c.fill_glitch_map chance).color_map = c.color_map ∧
    (c.fill_glitch_map chance).lines = c.lines ∧
    (c.fill_glitch_map chance).cols = c.cols ∧
    (c.fill_glitch_map chance).glitchy = c.glitchy := by
  unfold fill_glitch_map
  by_cases h : c.glitchy = true
  · rw [if_neg (by simp [h]), if_pos h]
    exact ⟨by simp, rfl, rfl, rfl, rfl⟩
  · rw [if_pos (by simpa using h), if_neg h]
    exact ⟨rfl, rfl, rfl, rfl, rfl⟩

theorem fill_color_map_spec (c : Cloud) (samp : Nat → Nat) :
    (c.fill_color_map samp).color_map.length = c.lines * c.cols ∧
    (c.fill_color_map samp).glitch_map = c.glitch_map ∧
    (c.fill_color_map samp).lines = c.lines ∧
    (c.fill_color_map samp).cols = c.cols ∧
    (c.fill_color_map samp).glitchy = c.glitchy := by
  unfold fill_color_map
  exact ⟨by simp, rfl, rfl, rfl, rfl⟩

theorem set_column_speeds_maps (c : Cloud) (speed : Nat → Rat) :
    (c.set_column_speeds speed).glitch_map = c.glitch_map ∧
    (c.set_column_speeds speed).color_map = c.color_map ∧
    (c.set_column_speeds speed).lines = c.lines ∧
    (c.set_column_speeds speed).cols = c.cols ∧
    (c.set_column_speeds speed).glitchy = c.glitchy :=
  ⟨rfl, rfl, rfl, rfl, rfl⟩

theorem update_droplet_speeds_maps (c : Cloud) :
    c.update_droplet_speeds.glitch_map = c.glitch_map ∧
    c.update_droplet_speeds.color_map = c.color_map ∧
    c.update_droplet_speeds.lines = c.lines ∧
    c.update_droplet_speeds.cols = c.cols ∧
    c.update_droplet_speeds.glitchy = c.glitchy :=
  ⟨rfl, rfl, rfl, rfl, rfl⟩

end Cloud

theorem Cloud.reset_maps (c0 : Cloud) (cols lines : Nat) (now : Rat)
    (chance : Nat → Rat) (samp : Nat → Nat) (speed : Nat → Rat) (gms : Nat) :
    (c0.reset cols lines now chance samp speed gms).color_map.length = lines * cols ∧
    (c0.reset cols lines now chance samp speed gms).glitch_map.length =
      (if c0.glitchy = true then lines * cols else 0) ∧
    (c0.reset cols lines now chance samp speed gms).lines = lines ∧
    (c0.reset cols lines now chance samp speed gms).cols = cols ∧
    (c0.reset cols lines now chance samp speed gms).glitchy = c0.glitchy := by
  unfold Cloud.reset Cloud.recalc_droplets_per_sec Cloud.fill_glitch_map
    Cloud.fill_color_map Cloud.set_column_speeds Cloud.update_droplet_speeds
  dsimp only
  by_cases h : c0.glitchy = true
  · rw [if_neg (not_not_intro h), if_pos h]
    exact ⟨by simp, by simp, rfl, rfl, rfl⟩
  · rw [if_pos h, if_neg h]
    exact ⟨by simp, by simp, rfl, rfl, rfl⟩

/-- C7 (amended): in every state reachable after a `reset(cols, lines)`
through resizes, glitch-percentage changes, color-scheme changes, and
glitch toggling, the color overlay has exactly `lines × cols` entries,
and the glitch overlay has exactly `lines × cols` entries when glitching
is enabled and is empty (cleared by `fill_glitch_map`) when it is
disabled. -/
theorem cloud_map_sizes (c : Cloud) (h : Cloud.MapsReachable c) :
    c.color_map.length = c.lines * c.cols ∧
    c.glitch_map.length = (if c.glitchy = true then c.lines * c.cols else 0) := by
  induction h with
  | reset c0 cols lines now chance samp speed gms =>
    have hr := Cloud.reset_maps c0 cols lines now chance samp speed gms
    refine ⟨?_, ?_⟩
    · rw [hr.1, hr.2.2.1, hr.2.2.2.1]
    · rw [hr.2.1, hr.2.2.1, hr.2.2.2.1, hr.2.2.2.2]
  | set_glitch_pct pct chance _ ih =>
    rename Cloud => c'
    unfold Cloud.set_glitch_pct
    have h1 := Cloud.fill_glitch_map_spec { c' with glitch_pct := pct } chance
    constructor
    · rw [h1.2.1, h1.2.2.1, h1.2.2.2.1]
      exact ih.1
    · rw [h1.1, h1.2.2.1, h1.2.2.2.1, h1.2.2.2.2]
  | set_color_scheme pc pb samp _ ih =>
    rename Cloud => c'
    unfold Cloud.set_color_scheme
    dsimp only
    have h2 := Cloud.fill_color_map_spec
      { c' with palette_colors := pc, palette_bg := pb } samp
    constructor
    · rw [h2.1, h2.2.2.1, h2.2.2.2.1]
    · rw [h2.2.1, h2.2.2.1, h2.2.2.2.1, h2.2.2.2.2]
      exact ih.2
  | set_glitchy b chance _ ih =>
    rename Cloud => c'
    unfold Cloud.set_glitchy
    have h1 := Cloud.fill_glitch_map_spec { c' with glitchy := b } chance
    constructor
    · rw [h1.2.1, h1.2.2.1, h1.2.2.2.1]
      exact ih.1
    · rw [h1.1, h1.2.2.1, h1.2.2.2.1, h1.2.2.2.2]

/-- Witness for C7 (amended) on a concrete glitch-enabled cloud after
`reset(2, 2)`. -/
theorem cloud_map_sizes_witness :
    Cloud.MapsReachable cloudGlitchReset ∧
    (cloudGlitchReset.color_map.length = cloudGlitchReset.lines * cloudGlitchReset.cols ∧
      cloudGlitchReset.glitch_map.length =
        (if cloudGlitchReset.glitchy = true then
          cloudGlitchReset.lines * cloudGlitchReset.cols else 0)) :=
  ⟨Cloud.MapsReachable.reset _ 2 2 0 _ _ _ 300,
    cloud_map_sizes cloudGlitchReset (Cloud.MapsReachable.reset _ 2 2 0 _ _ _ 300)⟩

/-- Counterexample for C7 as stated: with glitching disabled (as
`src/main.rs` does under `--noglitch`), the state reached by
`reset(2, 2)` has an empty glitch overlay, not `lines × cols = 4`
entries. -/
theorem cloud_glitch_map_size_counterexample :
    Cloud.MapsReachable cloudNoGlitchReset ∧
    ¬(cloudNoGlitchReset.glitch_map.length =
        cloudNoGlitchReset.lines * cloudNoGlitchReset.cols) :=
  ⟨Cloud.MapsReachable.reset _ 2 2 0 _ _ _ 300, by decide⟩

namespace Cloud

theorem set_column_spawn_char_pool (c : Cloud) (col : Nat) (b : Bool) :
    (c.set_column_spawn col b).char_pool = c.char_pool := by
  unfold Cloud.set_column_spawn
  cases c.col_stat.get? col <;> rfl

theorem spawn_loop_preserves (now : Rat) :
    ∀ (o : List (Nat × FillRand)) (c : Cloud) (idx : Nat),
      (Cloud.spawn_loop c now o idx).1.char_pool = c.char_pool ∧
      (Cloud.spawn_loop c now o idx).1.perf_pressure = c.perf_pressure := by
  intro o
  induction o with
  | nil =>
    intro c idx
    exact ⟨rfl, rfl⟩
  | cons p rest ih =>
    intro c idx
    obtain ⟨colDraw, fr⟩ := p
    simp only [Cloud.spawn_loop]
    cases hcs : c.col_stat.get? (if c.full_width then colDraw &&& 0xFFFE else colDraw) with
    | none => exact ih c idx
    | some cs =>
      dsimp only
      by_cases hc1 : ¬ cs.can_spawn = true ∨ cs.num_droplets ≥ c.max_droplets_per_column
      · rw [if_pos hc1]
        exact ih c idx
      · rw [if_neg hc1]
        cases hff : Cloud.find_free c.droplets idx with
        | none => exact ⟨rfl, rfl⟩
        | some di =>
          dsimp only
          exact ih _ di

theorem spawn_droplets_preserves (c : Cloud) (now : Rat) (scale : Rat)
    (oracle : List (Nat × FillRand)) :
    (Cloud.spawn_droplets c now scale oracle).1.char_pool = c.char_pool ∧
    (Cloud.spawn_droplets c now scale oracle).1.perf_pressure = c.perf_pressure := by
  unfold Cloud.spawn_droplets
  dsimp only
  split_ifs with h1 h2
  all_goals first
    | exact ⟨rfl, rfl⟩
    | exact ⟨(spawn_loop_preserves now _ _ _).1, (spawn_loop_preserves now _ _ _).2⟩

theorem rain_update_step_no_glitch (now : Rat)
    (acc : Cloud × List (Nat × Nat × Nat × Nat)) (i : Nat) :
    (Cloud.rain_update_step false now acc i).2 = acc.2 ∧
    (Cloud.rain_update_step false now acc i).1.char_pool = acc.1.char_pool := by
  unfold Cloud.rain_update_step
  dsimp only
  simp only [Bool.false_eq_true, if_false]
  repeat' split
  all_goals first
    | exact ⟨rfl, rfl⟩
    | exact ⟨rfl, (Cloud.set_column_spawn_char_pool _ _ _).trans rfl⟩

theorem rain_fold_no_glitch (now : Rat) :
    ∀ (idxs : List Nat) (acc : Cloud × List (Nat × Nat × Nat × Nat)),
      (idxs.foldl (Cloud.rain_update_step false now) acc).2 = acc.2 ∧
      (idxs.foldl (Cloud.rain_update_step false now) acc).1.char_pool = acc.1.char_pool := by
  intro idxs
  induction idxs with
  | nil =>
    intro acc
    exact ⟨rfl, rfl⟩
  | cons i idxs ih =>
    intro acc
    rw [List.foldl_cons]
    have hstep := rain_update_step_no_glitch now acc i
    have hrec := ih (Cloud.rain_update_step false now acc i)
    exact ⟨hrec.1.trans hstep.1, hrec.2.trans hstep.2⟩

end Cloud

/-- C8: when the perf pressure is at or above the `0.35` threshold, the
tick's glitch glyph-replacement pass is suppressed: `Cloud::rain`
executes no `do_glitch_span` call, and the rotating character pool comes
out of the tick unchanged. -/
theorem rain_glitch_suppressed (c : Cloud) (now : Rat)
    (spawnOracle : List (Nat × FillRand)) (gms : Nat)
    (hp : (7 : Rat) / 20 ≤ c.perf_pressure) :
    (Cloud.rain_update c now spawnOracle gms).2 = [] ∧
    (Cloud.rain_update c now spawnOracle gms).1.char_pool = c.char_pool := by
  unfold Cloud.rain_update
  by_cases hpause : c.pause = true
  · rw [if_pos hpause]
    exact ⟨rfl, rfl⟩
  · rw [if_neg hpause]
    dsimp only
    have hpres := (Cloud.spawn_droplets_preserves c now
      (min (max (1 - 3 / 4 * c.perf_pressure) (1 / 4)) 1) spawnOracle).2
    have hchar := (Cloud.spawn_droplets_preserves c now
      (min (max (1 - 3 / 4 * c.perf_pressure) (1 / 4)) 1) spawnOracle).1
    have hdec : decide ((Cloud.spawn_droplets c now
        (min (max (1 - 3 / 4 * c.perf_pressure) (1 / 4)) 1) spawnOracle).1.perf_pressure
          < 7 / 20) = false := by
      rw [decide_eq_false_iff_not, not_lt, hpres]
      exact hp
    rw [hdec, Bool.and_false]
    have hfold := Cloud.rain_fold_no_glitch now
      (List.range (Cloud.spawn_droplets c now
        (min (max (1 - 3 / 4 * c.perf_pressure) (1 / 4)) 1) spawnOracle).1.droplets.length)
      ((Cloud.spawn_droplets c now
        (min (max (1 - 3 / 4 * c.perf_pressure) (1 / 4)) 1) spawnOracle).1, [])
    refine ⟨hfold.1, ?_⟩
    by_cases hdue : (false || Cloud.time_for_glitch (Cloud.spawn_droplets c now
        (min (max (1 - 3 / 4 * c.perf_pressure) (1 / 4)) 1) spawnOracle).1 now) = true
    · rw [if_pos hdue]
      dsimp only
      rw [hfold.2]
      exact hchar
    · rw [if_neg hdue]
      rw [hfold.2]
      exact hchar

/-- Witness for C8 on a concrete cloud with perf pressure `0.5`. -/
theorem rain_glitch_suppressed_witness :
    (7 : Rat) / 20 ≤ cloudHighPressure.perf_pressure ∧
    ((Cloud.rain_update cloudHighPressure 1 [] 300).2 = [] ∧
      (Cloud.rain_update cloudHighPressure 1 [] 300).1.char_pool =
        cloudHighPressure.char_pool) :=
  ⟨by norm_num [cloudHighPressure, Cloud.new],
    rain_glitch_suppressed cloudHighPressure 1 [] 300
      (by norm_num [cloudHighPressure, Cloud.new])⟩

namespace Cloud

theorem spawn_loop_fields (now : Rat) :
    ∀ (o : List (Nat × FillRand)) (c : Cloud) (idx : Nat),
      (Cloud.spawn_loop c now o idx).1.droplets_per_sec = c.droplets_per_sec ∧
      (Cloud.spawn_loop c now o idx).1.num_droplets = c.num_droplets ∧
      (Cloud.spawn_loop c now o idx).1.max_sim_delta = c.max_sim_delta ∧
      (Cloud.spawn_loop c now o idx).1.spawn_remainder = c.spawn_remainder ∧
      (Cloud.spawn_loop c now o idx).1.last_spawn_time = c.last_spawn_time := by
  intro o
  induction o with
  | nil =>
    intro c idx
    exact ⟨rfl, rfl, rfl, rfl, rfl⟩
  | cons p rest ih =>
    intro c idx
    obtain ⟨colDraw, fr⟩ := p
    simp only [Cloud.spawn_loop]
    cases hcs : c.col_stat.get? (if c.full_width then colDraw &&& 0xFFFE else colDraw) with
    | none => exact ih c idx
    | some cs =>
      dsimp only
      by_cases hc1 : ¬ cs.can_spawn = true ∨ cs.num_droplets ≥ c.max_droplets_per_column
      · rw [if_pos hc1]
        exact ih c idx
      · rw [if_neg hc1]
        cases hff : Cloud.find_free c.droplets idx with
        | none => exact ⟨rfl, rfl, rfl, rfl, rfl⟩
        | some di =>
          dsimp only
          exact ih _ di

theorem spawn_loop_count (now : Rat) :
    ∀ (o : List (Nat × FillRand)) (c : Cloud) (idx : Nat),
      (Cloud.spawn_loop c now o idx).2.2 = true →
      (Cloud.spawn_loop c now o idx).2.1 = o.length := by
  intro o
  induction o with
  | nil =>
    intro c idx _
    rfl
  | cons p rest ih =>
    intro c idx hok
    obtain ⟨colDraw, fr⟩ := p
    simp only [Cloud.spawn_loop] at hok ⊢
    cases hcs : c.col_stat.get? (if c.full_width then colDraw &&& 0xFFFE else colDraw) with
    | none =>
      rw [hcs] at hok
      simp at hok
    | some cs =>
      rw [hcs] at hok
      dsimp only at hok ⊢
      by_cases hc1 : ¬ cs.can_spawn = true ∨ cs.num_droplets ≥ c.max_droplets_per_column
      · rw [if_pos hc1] at hok
        simp at hok
      · rw [if_neg hc1] at hok ⊢
        cases hff : Cloud.find_free c.droplets idx with
        | none =>
          rw [hff] at hok
          simp at hok
        | some di =>
          rw [hff] at hok
          dsimp only at hok ⊢
          rw [List.length_cons, ih _ di hok]

theorem spawn_droplets_step (c : Cloud) (Δ : Rat) (o : List (Nat × FillRand))
    (hΔ : 0 ≤ Δ)
    (hcap : c.max_sim_delta = 0 ∨ Δ ≤ c.max_sim_delta)
    (hrem0 : 0 ≤ c.spawn_remainder) (hrem1 : c.spawn_remainder < 1)
    (hR : 0 ≤ c.droplets_per_sec)
    (hslack : Int.floor (Δ * c.droplets_per_sec) + 1 ≤ (c.num_droplets : Int))
    (hlen : Int.floor (Δ * c.droplets_per_sec) + 1 ≤ (o.length : Int))
    (hok : (Cloud.spawn_droplets c (c.last_spawn_time + Δ) 1 o).2.2 = true) :
    ((Cloud.spawn_droplets c (c.last_spawn_time + Δ) 1 o).2.1 : Rat) +
        (Cloud.spawn_droplets c (c.last_spawn_time + Δ) 1 o).1.spawn_remainder =
      Δ * c.droplets_per_sec + c.spawn_remainder ∧
    0 ≤ (Cloud.spawn_droplets c (c.last_spawn_time + Δ) 1 o).1.spawn_remainder ∧
    (Cloud.spawn_droplets c (c.last_spawn_time + Δ) 1 o).1.spawn_remainder < 1 ∧
    (Cloud.spawn_droplets c (c.last_spawn_time + Δ) 1 o).1.droplets_per_sec =
      c.droplets_per_sec ∧
    (Cloud.spawn_droplets c (c.last_spawn_time + Δ) 1 o).1.num_droplets = c.num_droplets ∧
    (Cloud.spawn_droplets c (c.last_spawn_time + Δ) 1 o).1.max_sim_delta = c.max_sim_delta ∧
    (Cloud.spawn_droplets c (c.last_spawn_time + Δ) 1 o).1.last_spawn_time =
      c.last_spawn_time + Δ := by
  have he : (if c.max_sim_delta > 0 then
      min (max (c.last_spawn_time + Δ - c.last_spawn_time) 0) c.max_sim_delta
    else max (c.last_spawn_time + Δ - c.last_spawn_time) 0) = Δ := by
    have h0 : max (c.last_spawn_time + Δ - c.last_spawn_time) 0 = Δ := by
      rw [add_sub_cancel_left, max_eq_left hΔ]
    rcases hcap with hcap | hcap
    · rw [if_neg (by rw [hcap]; exact lt_irrefl 0), h0]
    · by_cases hpos : c.max_sim_delta > 0
      · rw [if_pos hpos, h0, min_eq_left hcap]
      · rw [if_neg hpos, h0]
  have hb : max (Δ * c.droplets_per_sec * 1) 0 + c.spawn_remainder =
      Δ * c.droplets_per_sec + c.spawn_remainder := by
    rw [mul_one, max_eq_left (mul_nonneg hΔ hR)]
  have hB0 : (0 : Rat) ≤ Δ * c.droplets_per_sec + c.spawn_remainder :=
    add_nonneg (mul_nonneg hΔ hR) hrem0
  have hfl0 : (0 : Int) ≤ Int.floor (Δ * c.droplets_per_sec + c.spawn_remainder) :=
    Int.floor_nonneg.mpr hB0
  have hBlt : Δ * c.droplets_per_sec + c.spawn_remainder <
      Δ * c.droplets_per_sec + 1 := by linarith
  have hflB : Int.floor (Δ * c.droplets_per_sec + c.spawn_remainder) ≤
      Int.floor (Δ * c.droplets_per_sec) + 1 := by
    have := Int.floor_le_floor (le_of_lt hBlt)
    rwa [Int.floor_add_one] at this
  have hts : min (Int.floor (Δ * c.droplets_per_sec + c.spawn_remainder)).toNat
      c.num_droplets = (Int.floor (Δ * c.droplets_per_sec + c.spawn_remainder)).toNat := by
    apply min_eq_left
    omega
  have htsO : ((Int.floor (Δ * c.droplets_per_sec + c.spawn_remainder)).toNat : Int) ≤
      (o.length : Int) := by
    omega
  have hcast : (((Int.floor (Δ * c.droplets_per_sec + c.spawn_remainder)).toNat : Nat) : Rat) =
      ((Int.floor (Δ * c.droplets_per_sec + c.spawn_remainder) : Int) : Rat) := by
    exact_mod_cast congrArg (fun z : Int => (z : Rat)) (Int.toNat_of_nonneg hfl0)
  have hremA : (0 : Rat) ≤ Δ * c.droplets_per_sec + c.spawn_remainder -
      ((Int.floor (Δ * c.droplets_per_sec + c.spawn_remainder)).toNat : Rat) := by
    rw [hcast]
    have := Int.floor_le (Δ * c.droplets_per_sec + c.spawn_remainder)
    linarith
  have hremB : Δ * c.droplets_per_sec + c.spawn_remainder -
      ((Int.floor (Δ * c.droplets_per_sec + c.spawn_remainder)).toNat : Rat) < 1 := by
    rw [hcast]
    have := Int.lt_floor_add_one (Δ * c.droplets_per_sec + c.spawn_remainder)
    push_cast
    push_cast at this
    linarith
  unfold Cloud.spawn_droplets at hok ⊢
  dsimp only at hok ⊢
  rw [he, hb, hts] at hok ⊢
  by_cases hz : (Int.floor (Δ * c.droplets_per_sec + c.spawn_remainder)).toNat = 0
  · rw [if_pos hz] at hok ⊢
    refine ⟨?_, ?_, ?_, rfl, rfl, rfl, rfl⟩
    · dsimp only
      rw [hz]
      push_cast
      ring
    · dsimp only
      rw [hz] at hremA ⊢
      simpa using hremA
    · dsimp only
      rw [hz] at hremB ⊢
      simpa using hremB
  · rw [if_neg hz] at hok ⊢
    have hcount := Cloud.spawn_loop_count (c.last_spawn_time + Δ) _ _ _ hok
    have hfields := Cloud.spawn_loop_fields (c.last_spawn_time + Δ)
      (o.take (Int.floor (Δ * c.droplets_per_sec + c.spawn_remainder)).toNat)
    rw [List.length_take] at hcount
    have hmin : min (Int.floor (Δ * c.droplets_per_sec + c.spawn_remainder)).toNat
        o.length = (Int.floor (Δ * c.droplets_per_sec + c.spawn_remainder)).toNat := by
      apply min_eq_left
      omega
    rw [hmin] at hcount
    refine ⟨?_, ?_, ?_, ?_, ?_, ?_, ?_⟩
    · rw [hcount, (hfields _ 0).2.2.2.1]
      dsimp only
      ring
    · rw [(hfields _ 0).2.2.2.1]
      exact hremA
    · rw [(hfields _ 0).2.2.2.1]
      exact hremB
    · rw [(hfields _ 0).1]
    · rw [(hfields _ 0).2.1]
    · rw [(hfields _ 0).2.2.1]
    · rw [(hfields _ 0).2.2.2.2]

theorem spawn_run_spec (Δ : Rat) (hΔ : 0 ≤ Δ) :
    ∀ (oracles : List (List (Nat × FillRand))) (c : Cloud),
      (c.max_sim_delta = 0 ∨ Δ ≤ c.max_sim_delta) →
      0 ≤ c.spawn_remainder → c.spawn_remainder < 1 →
      0 ≤ c.droplets_per_sec →
      Int.floor (Δ * c.droplets_per_sec) + 1 ≤ (c.num_droplets : Int) →
      (∀ o ∈ oracles, Int.floor (Δ * c.droplets_per_sec) + 1 ≤ (o.length : Int)) →
      (Cloud.spawn_run Δ 1 c oracles).2.2 = true →
      (((Cloud.spawn_run Δ 1 c oracles).2.1 : Rat) +
          (Cloud.spawn_run Δ 1 c oracles).1.spawn_remainder =
        (oracles.length : Rat) * (Δ * c.droplets_per_sec) + c.spawn_remainder) ∧
      0 ≤ (Cloud.spawn_run Δ 1 c oracles).1.spawn_remainder ∧
      (Cloud.spawn_run Δ 1 c oracles).1.spawn_remainder < 1 := by
  intro oracles
  induction oracles with
  | nil =>
    intro c _ h0 h1 _ _ _ _
    refine ⟨?_, h0, h1⟩
    simp [Cloud.spawn_run]
  | cons o os ih =>
    intro c hcap hr0 hr1 hR hslack hlen hok
    simp only [Cloud.spawn_run] at hok ⊢
    rw [Bool.and_eq_true] at hok
    obtain ⟨hok1, hok2⟩ := hok
    have hstep := Cloud.spawn_droplets_step c Δ o hΔ hcap hr0 hr1 hR hslack
      (hlen o (by simp)) hok1
    obtain ⟨heq, hA, hB, hdps, hnum, hcap', hlast⟩ := hstep
    have hih := ih (Cloud.spawn_droplets c (c.last_spawn_time + Δ) 1 o).1
      (by rw [hcap']; exact hcap) hA hB (by rw [hdps]; exact hR)
      (by rw [hdps, hnum]; exact hslack)
      (by rw [hdps]; exact fun o' ho' => hlen o' (by simp [ho']))
      hok2
    rw [hdps] at hih
    refine ⟨?_, hih.2.1, hih.2.2⟩
    have h1 := hih.1
    rw [List.length_cons]
    push_cast at h1 ⊢
    linear_combination h1 + heq

end Cloud

/-- C1: over any run of `N` consecutive spawn steps with fixed per-step
elapsed time `Δ` (not exceeding the simulation-delta cap), rate
`R = droplets_per_sec`, pressure scale `1`, a zero starting remainder,
enough pool slack, and with every spawn attempt passing its
column-eligibility checks and finding a free pool slot, the cumulative
number of droplets activated is exactly `⌊N·Δ·R⌋` — in particular within
`±1` of it — and the carried fractional remainder always stays in
`[0, 1)`, never lost or duplicated. -/
theorem spawn_rate_conservation (c : Cloud) (Δ : Rat)
    (oracles : List (List (Nat × FillRand)))
    (hΔ : 0 ≤ Δ)
    (hcap : c.max_sim_delta = 0 ∨ Δ ≤ c.max_sim_delta)
    (hrem : c.spawn_remainder = 0)
    (hR : 0 ≤ c.droplets_per_sec)
    (hslack : Int.floor (Δ * c.droplets_per_sec) + 1 ≤ (c.num_droplets : Int))
    (hlen : ∀ o ∈ oracles, Int.floor (Δ * c.droplets_per_sec) + 1 ≤ (o.length : Int))
    (hok : (Cloud.spawn_run Δ 1 c oracles).2.2 = true) :
    ((Cloud.spawn_run Δ 1 c oracles).2.1 : Int) =
      Int.floor ((oracles.length : Rat) * Δ * c.droplets_per_sec) ∧
    0 ≤ (Cloud.spawn_run Δ 1 c oracles).1.spawn_remainder ∧
    (Cloud.spawn_run Δ 1 c oracles).1.spawn_remainder < 1 := by
  have hspec := Cloud.spawn_run_spec Δ hΔ oracles c hcap
    (by rw [hrem]) (by rw [hrem]; norm_num) hR hslack hlen hok
  obtain ⟨heq, hA, hB⟩ := hspec
  rw [hrem, add_zero] at heq
  refine ⟨?_, hA, hB⟩
  symm
  rw [Int.floor_eq_iff]
  constructor
  · push_cast
    rw [mul_assoc]
    linarith
  · push_cast
    rw [mul_assoc]
    linarith

theorem cgr_last_spawn_time : cgr.last_spawn_time = 0 := rfl

theorem cgr_max_sim_delta : cgr.max_sim_delta = 0 := rfl

theorem cgr_droplets_per_sec : cgr.droplets_per_sec = 8 := rfl

theorem cgr_spawn_remainder : cgr.spawn_remainder = 0 := rfl

theorem cgr_num_droplets : cgr.num_droplets = 3 := rfl

theorem cgr_full_width : cgr.full_width = false := rfl

theorem cgr_max_per_column : cgr.max_droplets_per_column = 3 := rfl

theorem cgr_droplets : cgr.droplets = [Droplet.new, Droplet.new, Droplet.new] := rfl

theorem droplet_new_not_alive : Droplet.new.is_alive = false := rfl

theorem cloudGlitchReset_eq : cloudGlitchReset = cgr := by
  unfold cloudGlitchReset Cloud.reset Cloud.recalc_droplets_per_sec Cloud.fill_glitch_map
    Cloud.fill_color_map Cloud.set_column_speeds Cloud.update_droplet_speeds Cloud.new cgr
  norm_num [round_eq, List.range_succ, List.replicate, Droplet.new]
  exact ⟨by decide, rfl⟩

theorem cgrStep_full_width : cgrStep.full_width = false := rfl

theorem cgrStep_col_stat : cgrStep.col_stat = [⟨1, 0, true⟩, ⟨1, 0, true⟩] := rfl

theorem cgrStep_max_per_column : cgrStep.max_droplets_per_column = 3 := rfl

theorem cgrStep_droplets : cgrStep.droplets = [Droplet.new, Droplet.new, Droplet.new] := rfl

theorem find_free_dead_pool :
    Cloud.find_free [Droplet.new, Droplet.new, Droplet.new] 0 = some 0 := by
  simp [Cloud.find_free, droplet_new_not_alive]

theorem fill_droplet_eval :
    (Cloud.fill_droplet cgrStep frDraw Droplet.new 0).activate (1/8) = dSpawned := by
  unfold Cloud.fill_droplet Droplet.activate dSpawned
  norm_num [frDraw, Droplet.mk.injEq,
    show cgrStep.die_early_pct = 3333333/10000000 from rfl,
    show cgrStep.short_pct = 1/2 from rfl,
    show cgrStep.lines = 2 from rfl,
    show cgrStep.chars_per_sec = 8 from rfl,
    cgrStep_col_stat]

theorem spawn_loop_eval :
    Cloud.spawn_loop cgrStep (1/8) [(0, frDraw)] 0 = (cgrFinal, 1, true) := by
  simp only [Cloud.spawn_loop, cgrStep_full_width, cgrStep_col_stat,
    cgrStep_max_per_column, cgrStep_droplets, Bool.false_eq_true, if_false,
    List.get?_cons_zero]
  rw [if_neg (by norm_num)]
  simp only [fill_droplet_eval, List.set]
  norm_num [find_free_dead_pool, cgrStep, cgrFinal, Cloud.mk.injEq, cgr_full_width,
    cgr_max_per_column, List.set]

theorem spawn_step_one :
    Cloud.spawn_droplets cgr (0 + 1/16) 1 [(0, frDraw)] = (cgrMid, 0, true) := by
  unfold Cloud.spawn_droplets cgrMid
  norm_num [cgr_last_spawn_time, cgr_max_sim_delta, cgr_droplets_per_sec,
    cgr_spawn_remainder, cgr_num_droplets, Cloud.mk.injEq]

theorem spawn_step_two :
    Cloud.spawn_droplets cgrMid (1/16 + 1/16) 1 [(0, frDraw)] = (cgrFinal, 1, true) := by
  unfold Cloud.spawn_droplets cgrMid
  simp only [cgr_last_spawn_time, cgr_max_sim_delta, cgr_droplets_per_sec,
    cgr_spawn_remainder, cgr_num_droplets]
  norm_num []
  exact spawn_loop_eval

theorem spawn_run_eval :
    Cloud.spawn_run (1/16) 1 cloudGlitchReset twoStepOracle = (cgrFinal, 1, true) := by
  rw [cloudGlitchReset_eq, show twoStepOracle = [[(0, frDraw)], [(0, frDraw)]] from rfl]
  simp only [Cloud.spawn_run, cgr_last_spawn_time]
  rw [spawn_step_one]
  simp only []
  rw [show cgrMid.last_spawn_time = 1/16 from rfl, spawn_step_two]
  norm_num

/-- C1 witness: a concrete two-step spawn run over the reset default
cloud at Δ = 1/16 s and R = 8 droplets/s; every attempt succeeds, the
first step banks a half-droplet remainder, the second step converts it
into an activation: exactly ⌊2 × (1/16) × 8⌋ = 1 droplet in total, with
the carried remainder back in `[0, 1)`. -/
theorem spawn_rate_conservation_witness :
    (Cloud.spawn_run (1/16) 1 cloudGlitchReset twoStepOracle).2.2 = true ∧
    ((Cloud.spawn_run (1/16) 1 cloudGlitchReset twoStepOracle).2.1 : Int) =
      Int.floor ((twoStepOracle.length : Rat) * (1/16) *
        cloudGlitchReset.droplets_per_sec) ∧
    0 ≤ (Cloud.spawn_run (1/16) 1 cloudGlitchReset twoStepOracle).1.spawn_remainder ∧
    (Cloud.spawn_run (1/16) 1 cloudGlitchReset twoStepOracle).1.spawn_remainder < 1 := by
  have hok : (Cloud.spawn_run (1/16) 1 cloudGlitchReset twoStepOracle).2.2 = true := by
    rw [spawn_run_eval]
  refine ⟨hok, ?_⟩
  exact spawn_rate_conservation cloudGlitchReset (1/16) twoStepOracle
    (by norm_num)
    (Or.inl (by rw [cloudGlitchReset_eq]; exact cgr_max_sim_delta))
    (by rw [cloudGlitchReset_eq]; exact cgr_spawn_remainder)
    (by rw [cloudGlitchReset_eq, cgr_droplets_per_sec]; norm_num)
    (by rw [cloudGlitchReset_eq, cgr_droplets_per_sec, cgr_num_droplets]; norm_num)
    (by
      intro o ho
      rw [cloudGlitchReset_eq, cgr_droplets_per_sec]
      simp only [twoStepOracle, List.mem_cons, List.not_mem_nil, or_false] at ho
      rcases ho with rfl | rfl <;> norm_num)
    hok
